import Mathlib

/-!
# Ride state machine (src/buildings/ride.js)

A shallow embedding of the class Ride: its constructor, the per-tick method step
and the private method releaseVisitors, followed by theorems about them.

Modelling conventions.

* JavaScript numbers that the ride computes with (simulation time, ticket price,
  duration, capacity, revenue) are integers, embedded as Int. Array lengths are Nat.
* Objects are references. A visitor is named by a VisitorId and its mutable fields
  live in a store (VisitorId → Visitor); the two arrays of the ride hold VisitorIds.
  The same visitor may therefore occur several times in an array, as in the source.
* The route queries findNextRidePath and findExitPath are methods of the visitor
  class, which is outside this file; they are parameters (a RouteProvider).
  A result that is null or undefined is none (the source tests it with == null).
* Date.now() is a parameter: the i-th visitor of a batch reads clock i.
* console.log has no effect on the state and is not modelled. The log at line 142
  reads nextRideTile.building.subType; the tile of a next-ride route carries a ride,
  so the read succeeds. Likewise every visitor has a first child mesh (line 155).
* super.step of the parent class Zone is outside the source at hand and touches
  no field that Ride declares; it is not modelled.
-/

/-- Identity of a visitor object. -/
abbrev VisitorId := Nat

/-- Identity of a ride object (the value of this inside Ride). -/
abbrev RideId := Nat

/-- A node of the pedestrian graph. -/
abbrev Node := Nat

/-- A tile of the park. -/
abbrev Tile := Nat

/-- A JavaScript slot that holds undefined, null, or a proper value. -/
inductive JsVal (α : Type) where
  | undefined : JsVal α
  | null : JsVal α
  | val (a : α) : JsVal α
  deriving DecidableEq, Repr

/-- Array read xs[i]: the element, or undefined past the end. -/
def jsIndex {α : Type} (xs : List α) (i : Nat) : JsVal α :=
  match xs[i]? with
  | some a => JsVal.val a
  | none => JsVal.undefined

/-- Array.prototype.slice(0, e) for an integer e: a negative e counts from the end. -/
def jsSlice0 {α : Type} (xs : List α) (e : Int) : List α :=
  if e < 0 then xs.take (max ((xs.length : Int) + e) 0).toNat
  else xs.take e.toNat

/-- The loop for (let i = 0; i < n; i++) xs.shift(), run k times:
each round removes the first element (shift leaves an empty array empty). -/
def shiftTimes {α : Type} : Nat → List α → List α
  | 0, xs => xs
  | k + 1, xs => shiftTimes k xs.tail

/-- The route object returned by findNextRidePath. -/
structure NextRideRoute where
  destinationNode : Node
  nextRideTile : Tile
  pathToDestination : List Node
  deriving DecidableEq, Repr

/-- The route object returned by findExitPath. -/
structure ExitRoute where
  destinationNode : Node
  entranceTile : Tile
  pathToDestination : List Node
  deriving DecidableEq, Repr

/-- The fields of a visitor that Ride reads or writes. The field
finalDestinationRidceTile is the property that line 136 of ride.js assigns.
The field visible stands for children[0].visible, and worldTarget for the
positions refreshed by updateWorldPositions. -/
structure Visitor where
  origin : Node
  rideTiles : List Tile
  entranceTile : Tile
  visitedRides : List RideId
  destination : JsVal Node
  finalDestinationRideNode : JsVal Node
  finalDestinationRideTile : JsVal Tile
  finalDestinationRidceTile : JsVal Tile
  pathToDestinationRideNode : JsVal (List Node)
  isLeaving : Bool
  isPaused : Bool
  cycleStartTime : Int
  visible : Bool
  worldTarget : JsVal Node
  deriving DecidableEq, Repr

/-- The store of visitor objects. -/
abbrev Store := VisitorId → Visitor

/-- The two route queries. Each receives the visitor it is called on (identity and
current fields) and the two arguments passed at the call site. -/
structure RouteProvider where
  findNextRidePath : VisitorId → Visitor → Node → List Tile → Option NextRideRoute
  findExitPath : VisitorId → Visitor → Node → Tile → Option ExitRoute

/-- Modelled from the spec: Vehicle.updateWorldPositions is not part of the source
at hand. The spec says it refreshes the world position of the visitor from its
(possibly updated) destination, so it records the destination and touches nothing else. -/
def updateWorldPositions (v : Visitor) : Visitor :=
  { v with worldTarget := v.destination }

/-- The two values of Ride.state: idle and in operation. -/
inductive RideState where
  | idle : RideState
  | inOperation : RideState
  deriving DecidableEq, Repr

/-- The fields of a Ride object; ref is the identity of the object. -/
structure Ride where
  ref : RideId
  accumulatedRevenue : Int
  thrillLevel : Int
  installationCost : Int
  ticketPrice : Int
  rideDuration : Int
  rideCapacity : Int
  lastRunTime : Int
  state : RideState
  waitingVisitors : List VisitorId
  loadedVisitors : List VisitorId
  isMeshOutOfDate : Bool
  deriving DecidableEq, Repr

/-- The values that the constructor looks up in the configuration for the subtype.
The tables for thrillLevel, rideDuration and rideCapacity are not in config.js,
so the looked-up numbers are parameters. -/
structure RideConfig where
  thrillLevel : Int
  installationCost : Int
  ticketPrice : Int
  rideDuration : Int
  rideCapacity : Int
  deriving DecidableEq, Repr

/-- The constructor of Ride (lines 7 to 48): revenue 0, lastRunTime 0, state idle,
both arrays empty. The mesh flag belongs to the parent class and starts false. -/
def Ride.constructor (ref : RideId) (cfg : RideConfig) : Ride :=
  { ref := ref
    accumulatedRevenue := 0
    thrillLevel := cfg.thrillLevel
    installationCost := cfg.installationCost
    ticketPrice := cfg.ticketPrice
    rideDuration := cfg.rideDuration
    rideCapacity := cfg.rideCapacity
    lastRunTime := 0
    state := RideState.idle
    waitingVisitors := []
    loadedVisitors := []
    isMeshOutOfDate := false }

/-- Line 119, visitor.visitedRides.push(this): the visitor as the route queries see it. -/
def Ride.visited (self : RideId) (v : Visitor) : Visitor :=
  { v with visitedRides := v.visitedRides ++ [self] }

/-- The body of the forEach in releaseVisitors (lines 116 to 156), for the visitor
object vid whose fields are v; now is the reading of Date.now(). -/
def Ride.releaseVisitor (self : RideId) (rp : RouteProvider) (now : Int)
    (vid : VisitorId) (v : Visitor) : Visitor :=
  let v1 : Visitor := Ride.visited self v
  let v2 : Visitor :=
    match rp.findNextRidePath vid v1 v1.origin v1.rideTiles with
    | none =>
      let a : Visitor := { v1 with isLeaving := true }
      match rp.findExitPath vid a a.origin a.entranceTile with
      | none => { a with destination := JsVal.null }
      | some exitTarget =>
        { a with
          finalDestinationRideNode := JsVal.val exitTarget.destinationNode
          finalDestinationRidceTile := JsVal.val exitTarget.entranceTile
          pathToDestinationRideNode := JsVal.val exitTarget.pathToDestination
          destination := jsIndex exitTarget.pathToDestination 1 }
    | some nextRideTarget =>
      { v1 with
        finalDestinationRideNode := JsVal.val nextRideTarget.destinationNode
        finalDestinationRideTile := JsVal.val nextRideTarget.nextRideTile
        pathToDestinationRideNode := JsVal.val nextRideTarget.pathToDestination
        destination := jsIndex nextRideTarget.pathToDestination 1 }
  let v3 : Visitor := updateWorldPositions v2
  { v3 with cycleStartTime := now, isPaused := false, visible := true }

/-- The forEach of releaseVisitors over the array, from call number i on: the
visitors are processed in array order, each one updated in the store. -/
def Ride.releaseFrom (self : RideId) (rp : RouteProvider) (clock : Nat → Int) :
    Nat → List VisitorId → Store → Store
  | _, [], σ => σ
  | i, vid :: rest, σ =>
    Ride.releaseFrom self rp clock (i + 1) rest
      (Function.update σ vid (Ride.releaseVisitor self rp (clock i) vid (σ vid)))

/-- The private method releaseVisitors (lines 114 to 161): process every visitor of
the array passed in, then assign the empty array to this.loadedVisitors. -/
def Ride.releaseVisitors (rp : RouteProvider) (clock : Nat → Int) (r : Ride)
    (loadedVisitors : List VisitorId) (σ : Store) : Ride × Store :=
  ({ r with loadedVisitors := [] }, Ride.releaseFrom r.ref rp clock 0 loadedVisitors σ)

/-- The idle branch of step (lines 58 to 79). -/
def Ride.idleBranch (currentSimulationTime : Int) (r : Ride) : Ride :=
  if r.state = RideState.idle then
    if r.waitingVisitors.length > 0 then
      let numberToLoad : Int := min (r.waitingVisitors.length : Int) r.rideCapacity
      let visitorsToLoad := jsSlice0 r.waitingVisitors numberToLoad
      { r with
        loadedVisitors := visitorsToLoad
        waitingVisitors := shiftTimes numberToLoad.toNat r.waitingVisitors
        lastRunTime := currentSimulationTime
        state := RideState.inOperation
        isMeshOutOfDate := true }
    else r
  else r

/-- The in-operation branch of step (lines 82 to 99). -/
def Ride.operationBranch (rp : RouteProvider) (clock : Nat → Int)
    (currentSimulationTime : Int) (r : Ride) (σ : Store) : Ride × Store :=
  if r.state = RideState.inOperation then
    if currentSimulationTime ≥ r.lastRunTime + r.rideDuration then
      let r1 : Ride :=
        { r with accumulatedRevenue :=
            r.accumulatedRevenue + r.ticketPrice * (r.loadedVisitors.length : Int) }
      let released := Ride.releaseVisitors rp clock r1 r1.loadedVisitors σ
      ({ released.1 with state := RideState.idle, isMeshOutOfDate := true }, released.2)
    else (r, σ)
  else (r, σ)

/-- The method step (lines 54 to 100): the idle branch, then the in-operation
branch on the ride as the idle branch left it. -/
def Ride.step (rp : RouteProvider) (clock : Nat → Int) (currentSimulationTime : Int)
    (r : Ride) (σ : Store) : Ride × Store :=
  Ride.operationBranch rp clock currentSimulationTime
    (Ride.idleBranch currentSimulationTime r) σ

/-- What can happen to a ride and the visitors between and at ticks: a tick of the
simulation, an arrival (the arrival process appends a visitor to waitingVisitors),
or any change of visitor fields by another part of the simulation. -/
inductive Event where
  | tick (rp : RouteProvider) (clock : Nat → Int) (currentSimulationTime : Int) : Event
  | arrive (vid : VisitorId) : Event
  | external (f : Store → Store) : Event

/-- The effect of one event. -/
def Event.apply : Event → Ride × Store → Ride × Store
  | Event.tick rp clock t, w => Ride.step rp clock t w.1 w.2
  | Event.arrive vid, w => ({ w.1 with waitingVisitors := w.1.waitingVisitors ++ [vid] }, w.2)
  | Event.external f, w => (w.1, f w.2)

/-- The effect of a sequence of events, in order. -/
def runEvents : List Event → Ride × Store → Ride × Store
  | [], w => w
  | e :: es, w => runEvents es (e.apply w)

/-- The completion guard of step fires in the tick at time t: once the idle branch
has run, the ride is in operation and t has reached lastRunTime + rideDuration. -/
def Ride.completesAt (currentSimulationTime : Int) (r : Ride) : Prop :=
  (Ride.idleBranch currentSimulationTime r).state = RideState.inOperation ∧
    currentSimulationTime ≥
      (Ride.idleBranch currentSimulationTime r).lastRunTime +
        (Ride.idleBranch currentSimulationTime r).rideDuration

/-- No tick of the event sequence, run from w, completes a run. -/
def noCompletion : List Event → Ride × Store → Prop
  | [], _ => True
  | Event.tick rp clock t :: es, w =>
    ¬ Ride.completesAt t w.1 ∧ noCompletion es (Ride.step rp clock t w.1 w.2)
  | e :: es, w => noCompletion es (e.apply w)

/-- Whether an event is a tick. -/
def Event.isTick : Event → Bool
  | Event.tick _ _ _ => true
  | _ => false

/-- A ride used to instantiate the theorems: capacity 2, duration 10, ticket price 5,
four visitors waiting. -/
def sampleRide : Ride :=
  { Ride.constructor 7 ⟨1, 2000, 5, 10, 2⟩ with waitingVisitors := [1, 2, 3, 4] }

/-- The sample ride in operation since time 100 with the visitors 1, 2, 3 loaded
(capacity 3) and visitor 4 waiting. -/
def sampleRunningRide : Ride :=
  { Ride.constructor 7 ⟨1, 2000, 5, 10, 3⟩ with
    state := RideState.inOperation
    lastRunTime := 100
    loadedVisitors := [1, 2, 3]
    waitingVisitors := [4] }

/-- A visitor whose navigation fields are not yet set. -/
def sampleVisitor : Visitor :=
  { origin := 0
    rideTiles := []
    entranceTile := 0
    visitedRides := []
    destination := JsVal.undefined
    finalDestinationRideNode := JsVal.undefined
    finalDestinationRideTile := JsVal.undefined
    finalDestinationRidceTile := JsVal.undefined
    pathToDestinationRideNode := JsVal.undefined
    isLeaving := false
    isPaused := true
    cycleStartTime := 0
    visible := false
    worldTarget := JsVal.undefined }

/-- A store in which every visitor is the sample visitor. -/
def sampleStore : Store := fun _ => sampleVisitor

/-- A route provider that finds no route at all. -/
def noRouteProvider : RouteProvider :=
  { findNextRidePath := fun _ _ _ _ => none
    findExitPath := fun _ _ _ _ => none }

/-- The simulation time of a tick; none for the other events. -/
def Event.time : Event → Option Int
  | Event.tick _ _ t => some t
  | _ => none

/-- The simulation times of the ticks of an event sequence, in order. -/
def tickTimes (evs : List Event) : List Int :=
  evs.filterMap Event.time

/-- A route provider with fixed answers: visitor 1 gets a route to a next ride,
visitor 2 gets no next ride but a route to the exit, every other visitor gets nothing. -/
def sampleProvider : RouteProvider :=
  { findNextRidePath := fun vid _ _ _ =>
      if vid = 1 then some (NextRideRoute.mk 50 60 [10, 20, 30]) else none
    findExitPath := fun vid _ _ _ =>
      if vid = 2 then some (ExitRoute.mk 1 0 [10, 11]) else none }

/-- The sample ride with rideCapacity 0: idle, four visitors waiting, duration 10. -/
def zeroCapacityRide : Ride :=
  { sampleRide with rideCapacity := 0 }

/-- The sample ride with rideCapacity -1: idle, four visitors waiting, duration 10. -/
def negativeCapacityRide : Ride :=
  { sampleRide with rideCapacity := -1 }

/-- The sample ride with rideDuration 0: idle, four visitors waiting, capacity 2,
ticket price 5. -/
def zeroDurationRide : Ride :=
  { sampleRide with rideDuration := 0 }

/-- The table config.ride.ticketPrice (config.js, lines 42 to 53). -/
def configRideTicketPrice : List (String × Int) :=
  [("circus-tent", 3), ("water-ride", 5), ("bumper-car", 5), ("ferris-wheel", 3),
    ("roundabout", 3), ("carousel", 3), ("swing-claw", 5), ("space-adventure", 3),
    ("rollercoaster", 5), ("arcade", 3)]

/-- The read config.ride.ticketPrice[subType] of the constructor (line 23);
none stands for undefined. -/
def lookupTicketPrice (subType : String) : Option Int :=
  configRideTicketPrice.lookup subType

/-- A store in which every visitor has just arrived at the ride on tile 42 (node 41):
the sample visitor with these two destination fields set. -/
def arrivedStore : Store := fun _ =>
  { sampleVisitor with
    finalDestinationRideNode := JsVal.val 41
    finalDestinationRideTile := JsVal.val 42 }

/-! ## Auxiliary lemmas about the array operations and the two branches of step -/

theorem shiftTimes_eq_drop {α : Type} (k : Nat) (xs : List α) :
    shiftTimes k xs = xs.drop k := by
  induction k generalizing xs with
  | zero => rfl
  | succ k ih =>
    cases xs with
    | nil => simp [shiftTimes, ih]
    | cons x xs => simp [shiftTimes, ih]

theorem jsSlice0_of_nonneg {α : Type} (xs : List α) (e : Int) (h : 0 ≤ e) :
    jsSlice0 xs e = xs.take e.toNat := by
  unfold jsSlice0
  rw [if_neg (not_lt.mpr h)]

theorem jsSlice0_length_le {α : Type} (xs : List α) (e c : Int) (he : 0 ≤ e) (hec : e ≤ c) :
    ((jsSlice0 xs e).length : Int) ≤ c := by
  rw [jsSlice0_of_nonneg xs e he, List.length_take]
  omega

theorem Ride.idleBranch_of_not_idle (t : Int) (r : Ride) (h : r.state ≠ RideState.idle) :
    Ride.idleBranch t r = r := by
  unfold Ride.idleBranch
  rw [if_neg h]

theorem Ride.idleBranch_of_inOperation (t : Int) (r : Ride)
    (h : r.state = RideState.inOperation) : Ride.idleBranch t r = r :=
  Ride.idleBranch_of_not_idle t r (by rw [h]; decide)

theorem Ride.idleBranch_of_empty (t : Int) (r : Ride) (h : r.waitingVisitors = []) :
    Ride.idleBranch t r = r := by
  unfold Ride.idleBranch
  split
  · rw [if_neg (by simp [h])]
  · rfl

theorem Ride.idleBranch_of_waiting (t : Int) (r : Ride) (hidle : r.state = RideState.idle)
    (hw : r.waitingVisitors ≠ []) :
    Ride.idleBranch t r =
      { r with
        loadedVisitors :=
          jsSlice0 r.waitingVisitors (min (r.waitingVisitors.length : Int) r.rideCapacity)
        waitingVisitors :=
          shiftTimes (min (r.waitingVisitors.length : Int) r.rideCapacity).toNat
            r.waitingVisitors
        lastRunTime := t
        state := RideState.inOperation
        isMeshOutOfDate := true } := by
  unfold Ride.idleBranch
  rw [if_pos hidle, if_pos (List.length_pos.mpr hw)]

theorem Ride.operationBranch_of_idle (rp : RouteProvider) (clock : Nat → Int) (t : Int)
    (r : Ride) (σ : Store) (h : r.state = RideState.idle) :
    Ride.operationBranch rp clock t r σ = (r, σ) := by
  unfold Ride.operationBranch
  rw [if_neg (by rw [h]; decide)]

theorem Ride.operationBranch_of_early (rp : RouteProvider) (clock : Nat → Int) (t : Int)
    (r : Ride) (σ : Store) (h : t < r.lastRunTime + r.rideDuration) :
    Ride.operationBranch rp clock t r σ = (r, σ) := by
  unfold Ride.operationBranch
  split
  · rw [if_neg (not_le.mpr h)]
  · rfl

theorem Ride.operationBranch_of_due (rp : RouteProvider) (clock : Nat → Int) (t : Int)
    (r : Ride) (σ : Store) (hop : r.state = RideState.inOperation)
    (hg : t ≥ r.lastRunTime + r.rideDuration) :
    Ride.operationBranch rp clock t r σ =
      ({ r with
          accumulatedRevenue :=
            r.accumulatedRevenue + r.ticketPrice * (r.loadedVisitors.length : Int)
          loadedVisitors := []
          state := RideState.idle
          isMeshOutOfDate := true },
        Ride.releaseFrom r.ref rp clock 0 r.loadedVisitors σ) := by
  unfold Ride.operationBranch
  rw [if_pos hop, if_pos hg]
  rfl

/-! ## Boarding -/

/-- C1 (FIFO boarding with conservation): an idle ride with a non-empty waiting list w,
capacity c ≥ 0 and duration > 0 ends the tick with loadedVisitors the first
n = min (length w) c elements of w and waitingVisitors the remaining ones, both in
their original order, so that loadedVisitors ++ waitingVisitors = w. -/
theorem Ride.step_fifo_boarding (rp : RouteProvider) (clock : Nat → Int) (t : Int)
    (r : Ride) (σ : Store) (hidle : r.state = RideState.idle)
    (hw : r.waitingVisitors ≠ []) (hc : 0 ≤ r.rideCapacity) (hd : 0 < r.rideDuration) :
    (Ride.step rp clock t r σ).1.loadedVisitors =
        r.waitingVisitors.take (min (r.waitingVisitors.length : Int) r.rideCapacity).toNat ∧
      (Ride.step rp clock t r σ).1.waitingVisitors =
        r.waitingVisitors.drop (min (r.waitingVisitors.length : Int) r.rideCapacity).toNat ∧
      (Ride.step rp clock t r σ).1.loadedVisitors ++
        (Ride.step rp clock t r σ).1.waitingVisitors = r.waitingVisitors := by
  have hn : 0 ≤ min (r.waitingVisitors.length : Int) r.rideCapacity :=
    le_min (Int.ofNat_nonneg _) hc
  have hstep : Ride.step rp clock t r σ = (Ride.idleBranch t r, σ) := by
    unfold Ride.step
    apply Ride.operationBranch_of_early
    rw [Ride.idleBranch_of_waiting t r hidle hw]
    show t < t + r.rideDuration
    omega
  rw [hstep, Ride.idleBranch_of_waiting t r hidle hw]
  simp only [jsSlice0_of_nonneg _ _ hn, shiftTimes_eq_drop, List.take_append_drop,
    and_self]

/-- Witness of C1: four visitors waiting, capacity 2, duration 10. -/
theorem Ride.step_fifo_boarding_witness :
    (sampleRide.state = RideState.idle ∧ sampleRide.waitingVisitors ≠ [] ∧
      0 ≤ sampleRide.rideCapacity ∧ 0 < sampleRide.rideDuration) ∧
    (Ride.step noRouteProvider (fun _ => 0) 100 sampleRide sampleStore).1.loadedVisitors
        = [1, 2] ∧
      (Ride.step noRouteProvider (fun _ => 0) 100 sampleRide sampleStore).1.waitingVisitors
        = [3, 4] := by
  have h := Ride.step_fifo_boarding noRouteProvider (fun _ => 0) 100 sampleRide sampleStore
    (by decide) (by decide) (by decide) (by decide)
  exact ⟨by decide, h.1.trans (by decide), h.2.1.trans (by decide)⟩

/-! ## The two branches, case by case -/

theorem Ride.idleBranch_cases (t : Int) (r : Ride) :
    Ride.idleBranch t r = r ∨
      (r.state = RideState.idle ∧ r.waitingVisitors ≠ [] ∧
        Ride.idleBranch t r =
          { r with
            loadedVisitors :=
              jsSlice0 r.waitingVisitors (min (r.waitingVisitors.length : Int) r.rideCapacity)
            waitingVisitors :=
              shiftTimes (min (r.waitingVisitors.length : Int) r.rideCapacity).toNat
                r.waitingVisitors
            lastRunTime := t
            state := RideState.inOperation
            isMeshOutOfDate := true }) := by
  by_cases hidle : r.state = RideState.idle
  · by_cases hw : r.waitingVisitors = []
    · left; exact Ride.idleBranch_of_empty t r hw
    · right; exact ⟨hidle, hw, Ride.idleBranch_of_waiting t r hidle hw⟩
  · left; exact Ride.idleBranch_of_not_idle t r hidle

theorem Ride.operationBranch_cases (rp : RouteProvider) (clock : Nat → Int) (t : Int)
    (r : Ride) (σ : Store) :
    Ride.operationBranch rp clock t r σ = (r, σ) ∨
      (r.state = RideState.inOperation ∧ t ≥ r.lastRunTime + r.rideDuration ∧
        Ride.operationBranch rp clock t r σ =
          ({ r with
              accumulatedRevenue :=
                r.accumulatedRevenue + r.ticketPrice * (r.loadedVisitors.length : Int)
              loadedVisitors := []
              state := RideState.idle
              isMeshOutOfDate := true },
            Ride.releaseFrom r.ref rp clock 0 r.loadedVisitors σ)) := by
  by_cases hop : r.state = RideState.inOperation
  · by_cases hg : t ≥ r.lastRunTime + r.rideDuration
    · right; exact ⟨hop, hg, Ride.operationBranch_of_due rp clock t r σ hop hg⟩
    · left; exact Ride.operationBranch_of_early rp clock t r σ (not_le.mp hg)
  · left
    unfold Ride.operationBranch
    rw [if_neg hop]

theorem Ride.idleBranch_rideCapacity (t : Int) (r : Ride) :
    (Ride.idleBranch t r).rideCapacity = r.rideCapacity := by
  rcases Ride.idleBranch_cases t r with h | ⟨_, _, h⟩ <;> rw [h]

theorem Ride.idleBranch_rideDuration (t : Int) (r : Ride) :
    (Ride.idleBranch t r).rideDuration = r.rideDuration := by
  rcases Ride.idleBranch_cases t r with h | ⟨_, _, h⟩ <;> rw [h]

theorem Ride.idleBranch_accumulatedRevenue (t : Int) (r : Ride) :
    (Ride.idleBranch t r).accumulatedRevenue = r.accumulatedRevenue := by
  rcases Ride.idleBranch_cases t r with h | ⟨_, _, h⟩ <;> rw [h]

theorem Ride.idleBranch_ticketPrice (t : Int) (r : Ride) :
    (Ride.idleBranch t r).ticketPrice = r.ticketPrice := by
  rcases Ride.idleBranch_cases t r with h | ⟨_, _, h⟩ <;> rw [h]

theorem Ride.step_rideCapacity (rp : RouteProvider) (clock : Nat → Int) (t : Int)
    (r : Ride) (σ : Store) : (Ride.step rp clock t r σ).1.rideCapacity = r.rideCapacity := by
  unfold Ride.step
  rcases Ride.operationBranch_cases rp clock t (Ride.idleBranch t r) σ with h | ⟨_, _, h⟩ <;>
    rw [h] <;> exact Ride.idleBranch_rideCapacity t r

theorem Ride.step_rideDuration (rp : RouteProvider) (clock : Nat → Int) (t : Int)
    (r : Ride) (σ : Store) : (Ride.step rp clock t r σ).1.rideDuration = r.rideDuration := by
  unfold Ride.step
  rcases Ride.operationBranch_cases rp clock t (Ride.idleBranch t r) σ with h | ⟨_, _, h⟩ <;>
    rw [h] <;> exact Ride.idleBranch_rideDuration t r

theorem Ride.step_ticketPrice (rp : RouteProvider) (clock : Nat → Int) (t : Int)
    (r : Ride) (σ : Store) : (Ride.step rp clock t r σ).1.ticketPrice = r.ticketPrice := by
  unfold Ride.step
  rcases Ride.operationBranch_cases rp clock t (Ride.idleBranch t r) σ with h | ⟨_, _, h⟩ <;>
    rw [h] <;> exact Ride.idleBranch_ticketPrice t r

/-! ## Invariants of the reachable states -/

theorem Ride.idleBranch_loaded_le (t : Int) (r : Ride) (hc : 0 ≤ r.rideCapacity)
    (hlen : (r.loadedVisitors.length : Int) ≤ r.rideCapacity) :
    ((Ride.idleBranch t r).loadedVisitors.length : Int) ≤ r.rideCapacity := by
  rcases Ride.idleBranch_cases t r with h | ⟨_, _, h⟩
  · rw [h]; exact hlen
  · rw [h]
    exact jsSlice0_length_le _ _ _ (le_min (Int.ofNat_nonneg _) hc) (min_le_right _ _)

theorem Ride.step_loaded_le (rp : RouteProvider) (clock : Nat → Int) (t : Int)
    (r : Ride) (σ : Store) (hc : 0 ≤ r.rideCapacity)
    (hlen : (r.loadedVisitors.length : Int) ≤ r.rideCapacity) :
    ((Ride.step rp clock t r σ).1.loadedVisitors.length : Int) ≤ r.rideCapacity := by
  unfold Ride.step
  rcases Ride.operationBranch_cases rp clock t (Ride.idleBranch t r) σ with h | ⟨_, _, h⟩
  · rw [h]; exact Ride.idleBranch_loaded_le t r hc hlen
  · rw [h]; simpa using hc

theorem Event.apply_rideCapacity (e : Event) (w : Ride × Store) :
    (e.apply w).1.rideCapacity = w.1.rideCapacity := by
  cases e with
  | tick rp clock t => exact Ride.step_rideCapacity rp clock t w.1 w.2
  | arrive vid => rfl
  | external f => rfl

theorem Event.apply_loaded_le (e : Event) (w : Ride × Store) (hc : 0 ≤ w.1.rideCapacity)
    (hlen : (w.1.loadedVisitors.length : Int) ≤ w.1.rideCapacity) :
    ((e.apply w).1.loadedVisitors.length : Int) ≤ w.1.rideCapacity := by
  cases e with
  | tick rp clock t => exact Ride.step_loaded_le rp clock t w.1 w.2 hc hlen
  | arrive vid => exact hlen
  | external f => exact hlen

theorem runEvents_loaded_le (evs : List Event) (w : Ride × Store)
    (hc : 0 ≤ w.1.rideCapacity)
    (hlen : (w.1.loadedVisitors.length : Int) ≤ w.1.rideCapacity) :
    ((runEvents evs w).1.loadedVisitors.length : Int) ≤ w.1.rideCapacity := by
  induction evs generalizing w with
  | nil => exact hlen
  | cons e es ih =>
    have hcap := Event.apply_rideCapacity e w
    have h := ih (e.apply w) (by rw [hcap]; exact hc)
      (by rw [hcap]; exact Event.apply_loaded_le e w hc hlen)
    rw [hcap] at h
    exact h

/-- C2 (capacity bound): from the freshly constructed ride (idle, both lists empty) with
a capacity ≥ 0, after every finite sequence of ticks (at any times, with any route
provider), arrivals appended to waitingVisitors and changes to the visitors made
elsewhere, length loadedVisitors ≤ rideCapacity. -/
theorem Ride.capacity_bound (ref : RideId) (cfg : RideConfig) (σ : Store)
    (evs : List Event) (hc : 0 ≤ cfg.rideCapacity) :
    ((runEvents evs (Ride.constructor ref cfg, σ)).1.loadedVisitors.length : Int)
      ≤ cfg.rideCapacity :=
  runEvents_loaded_le evs (Ride.constructor ref cfg, σ) hc hc

/-- Witness of C2: five arrivals at a ride of capacity 2, then a tick. -/
theorem Ride.capacity_bound_witness :
    (0 : Int) ≤ (RideConfig.mk 1 2000 5 10 2).rideCapacity ∧
    ((runEvents
        [Event.arrive 1, Event.arrive 2, Event.arrive 3, Event.arrive 4, Event.arrive 5,
          Event.tick noRouteProvider (fun _ => 0) 100]
        (Ride.constructor 7 (RideConfig.mk 1 2000 5 10 2), sampleStore)).1.loadedVisitors.length
        : Int) ≤ 2 :=
  ⟨by decide, Ride.capacity_bound 7 (RideConfig.mk 1 2000 5 10 2) sampleStore _ (by decide)⟩

theorem Ride.step_idle_loaded_nil (rp : RouteProvider) (clock : Nat → Int) (t : Int)
    (r : Ride) (σ : Store) (hinv : r.state = RideState.idle → r.loadedVisitors = [])
    (hidle : (Ride.step rp clock t r σ).1.state = RideState.idle) :
    (Ride.step rp clock t r σ).1.loadedVisitors = [] := by
  unfold Ride.step at hidle ⊢
  rcases Ride.operationBranch_cases rp clock t (Ride.idleBranch t r) σ with h | ⟨_, _, h⟩
  · rw [h] at hidle ⊢
    rcases Ride.idleBranch_cases t r with h1 | ⟨_, _, h1⟩
    · rw [h1] at hidle ⊢
      exact hinv hidle
    · rw [h1] at hidle
      exact RideState.noConfusion hidle
  · rw [h]

theorem Event.apply_idle_loaded_nil (e : Event) (w : Ride × Store)
    (hinv : w.1.state = RideState.idle → w.1.loadedVisitors = [])
    (hidle : (e.apply w).1.state = RideState.idle) : (e.apply w).1.loadedVisitors = [] := by
  cases e with
  | tick rp clock t => exact Ride.step_idle_loaded_nil rp clock t w.1 w.2 hinv hidle
  | arrive vid => exact hinv hidle
  | external f => exact hinv hidle

theorem runEvents_idle_loaded_nil (evs : List Event) (w : Ride × Store)
    (hinv : w.1.state = RideState.idle → w.1.loadedVisitors = [])
    (hidle : (runEvents evs w).1.state = RideState.idle) :
    (runEvents evs w).1.loadedVisitors = [] := by
  induction evs generalizing w with
  | nil => exact hinv hidle
  | cons e es ih => exact ih (e.apply w) (Event.apply_idle_loaded_nil e w hinv) hidle

/-- C10 (state/batch invariant): in every state reached from the freshly constructed
ride by ticks, arrivals and changes to the visitors made elsewhere, whatever the
configuration, state = idle implies that loadedVisitors is empty. -/
theorem Ride.idle_has_empty_batch (ref : RideId) (cfg : RideConfig) (σ : Store)
    (evs : List Event)
    (hidle : (runEvents evs (Ride.constructor ref cfg, σ)).1.state = RideState.idle) :
    (runEvents evs (Ride.constructor ref cfg, σ)).1.loadedVisitors = [] :=
  runEvents_idle_loaded_nil evs (Ride.constructor ref cfg, σ) (fun _ => rfl) hidle

/-- Witness of C10: two arrivals, a tick that loads them and a tick that completes the run. -/
theorem Ride.idle_has_empty_batch_witness :
    (runEvents
        [Event.arrive 1, Event.arrive 2, Event.tick noRouteProvider (fun _ => 0) 100,
          Event.tick noRouteProvider (fun _ => 0) 110]
        (Ride.constructor 7 (RideConfig.mk 1 2000 5 10 2), sampleStore)).1.state
        = RideState.idle ∧
    (runEvents
        [Event.arrive 1, Event.arrive 2, Event.tick noRouteProvider (fun _ => 0) 100,
          Event.tick noRouteProvider (fun _ => 0) 110]
        (Ride.constructor 7 (RideConfig.mk 1 2000 5 10 2), sampleStore)).1.loadedVisitors
        = [] :=
  ⟨by decide, Ride.idle_has_empty_batch 7 (RideConfig.mk 1 2000 5 10 2) sampleStore _
    (by decide)⟩

/-! ## Revenue -/

theorem Ride.step_of_due (rp : RouteProvider) (clock : Nat → Int) (t : Int)
    (r : Ride) (σ : Store) (hop : r.state = RideState.inOperation)
    (hg : t ≥ r.lastRunTime + r.rideDuration) :
    Ride.step rp clock t r σ =
      ({ r with
          accumulatedRevenue :=
            r.accumulatedRevenue + r.ticketPrice * (r.loadedVisitors.length : Int)
          loadedVisitors := []
          state := RideState.idle
          isMeshOutOfDate := true },
        Ride.releaseFrom r.ref rp clock 0 r.loadedVisitors σ) := by
  unfold Ride.step
  rw [Ride.idleBranch_of_inOperation t r hop]
  exact Ride.operationBranch_of_due rp clock t r σ hop hg

/-- C3 (revenue exactness): a ride in operation at the start of a tick with
currentSimulationTime ≥ lastRunTime + rideDuration ends the tick with accumulatedRevenue
equal to its previous value plus ticketPrice × k, where k is the number of loaded
visitors before the batch is cleared. -/
theorem Ride.step_revenue_exact (rp : RouteProvider) (clock : Nat → Int) (t : Int)
    (r : Ride) (σ : Store) (hop : r.state = RideState.inOperation)
    (hg : t ≥ r.lastRunTime + r.rideDuration) :
    (Ride.step rp clock t r σ).1.accumulatedRevenue =
      r.accumulatedRevenue + r.ticketPrice * (r.loadedVisitors.length : Int) := by
  rw [Ride.step_of_due rp clock t r σ hop hg]

/-- Witness of C3: ticket price 5 and three loaded visitors add exactly 15. -/
theorem Ride.step_revenue_exact_witness :
    (sampleRunningRide.state = RideState.inOperation ∧
      (110 : Int) ≥ sampleRunningRide.lastRunTime + sampleRunningRide.rideDuration) ∧
    (Ride.step noRouteProvider (fun _ => 0) 110 sampleRunningRide
        sampleStore).1.accumulatedRevenue = sampleRunningRide.accumulatedRevenue + 15 :=
  ⟨by decide,
    (Ride.step_revenue_exact noRouteProvider (fun _ => 0) 110 sampleRunningRide sampleStore
      (by decide) (by decide)).trans (by decide)⟩

/-! ## Idle stability -/

theorem Ride.step_of_idle_empty (rp : RouteProvider) (clock : Nat → Int) (t : Int)
    (r : Ride) (σ : Store) (hidle : r.state = RideState.idle)
    (hw : r.waitingVisitors = []) : Ride.step rp clock t r σ = (r, σ) := by
  unfold Ride.step
  rw [Ride.idleBranch_of_empty t r hw]
  exact Ride.operationBranch_of_idle rp clock t r σ hidle

/-- C8 (idle stability): an idle ride with nobody waiting is left exactly as it is by
any number of consecutive ticks at any simulation times: the ride record (state,
accumulatedRevenue, lastRunTime, waitingVisitors, loadedVisitors and all other fields)
and the visitors are unchanged. -/
theorem Ride.idle_stability (r : Ride) (σ : Store) (evs : List Event)
    (hidle : r.state = RideState.idle) (hw : r.waitingVisitors = [])
    (hticks : ∀ e ∈ evs, e.isTick = true) : runEvents evs (r, σ) = (r, σ) := by
  induction evs with
  | nil => rfl
  | cons e es ih =>
    have he : e.apply (r, σ) = (r, σ) := by
      cases e with
      | tick rp clock t => exact Ride.step_of_idle_empty rp clock t r σ hidle hw
      | arrive vid => exact Bool.noConfusion (hticks _ (List.mem_cons_self _ _))
      | external f => exact Bool.noConfusion (hticks _ (List.mem_cons_self _ _))
    show runEvents es (e.apply (r, σ)) = (r, σ)
    rw [he]
    exact ih (fun e' h' => hticks e' (List.mem_cons_of_mem _ h'))

/-- Witness of C8: three ticks at the times 5, 1000 and 3 on the fresh ride. -/
theorem Ride.idle_stability_witness :
    ((Ride.constructor 7 (RideConfig.mk 1 2000 5 10 2)).state = RideState.idle ∧
      (Ride.constructor 7 (RideConfig.mk 1 2000 5 10 2)).waitingVisitors = []) ∧
    runEvents
        [Event.tick noRouteProvider (fun _ => 0) 5, Event.tick noRouteProvider (fun _ => 0) 1000,
          Event.tick noRouteProvider (fun _ => 0) 3]
        (Ride.constructor 7 (RideConfig.mk 1 2000 5 10 2), sampleStore)
      = (Ride.constructor 7 (RideConfig.mk 1 2000 5 10 2), sampleStore) :=
  ⟨by decide, Ride.idle_stability _ sampleStore _ (by decide) (by decide)
    (by intro e he; simp at he; rcases he with h | h | h <;> subst h <;> rfl)⟩

/-! ## No double accrual -/

theorem Ride.step_revenue_of_not_completes (rp : RouteProvider) (clock : Nat → Int) (t : Int)
    (r : Ride) (σ : Store) (h : ¬ Ride.completesAt t r) :
    (Ride.step rp clock t r σ).1.accumulatedRevenue = r.accumulatedRevenue := by
  unfold Ride.step
  rcases Ride.operationBranch_cases rp clock t (Ride.idleBranch t r) σ with h1 | ⟨hop, hg, _⟩
  · rw [h1]; exact Ride.idleBranch_accumulatedRevenue t r
  · exact absurd ⟨hop, hg⟩ h

theorem runEvents_revenue_of_noCompletion (evs : List Event) (w : Ride × Store)
    (h : noCompletion evs w) :
    (runEvents evs w).1.accumulatedRevenue = w.1.accumulatedRevenue := by
  induction evs generalizing w with
  | nil => rfl
  | cons e es ih =>
    cases e with
    | tick rp clock t =>
      have h2 : ¬ Ride.completesAt t w.1 ∧ noCompletion es (Ride.step rp clock t w.1 w.2) := h
      have h3 := ih (Ride.step rp clock t w.1 w.2) h2.2
      rw [Ride.step_revenue_of_not_completes rp clock t w.1 w.2 h2.1] at h3
      exact h3
    | arrive vid =>
      have h2 : noCompletion es ((Event.arrive vid).apply w) := h
      exact ih _ h2
    | external f =>
      have h2 : noCompletion es ((Event.external f).apply w) := h
      exact ih _ h2

theorem Ride.not_completesAt_of_idle (t : Int) (r : Ride) (hd : 0 < r.rideDuration)
    (hidle : r.state = RideState.idle) : ¬ Ride.completesAt t r := by
  intro hc
  unfold Ride.completesAt at hc
  rcases Ride.idleBranch_cases t r with h | ⟨_, _, h⟩
  · rw [h, hidle] at hc
    exact RideState.noConfusion hc.1
  · rw [h] at hc
    have h2 : t ≥ t + r.rideDuration := hc.2
    omega

theorem Ride.not_completesAt_of_early (t : Int) (r : Ride)
    (hop : r.state = RideState.inOperation) (h : t < r.lastRunTime + r.rideDuration) :
    ¬ Ride.completesAt t r := by
  intro hc
  unfold Ride.completesAt at hc
  rw [Ride.idleBranch_of_inOperation t r hop] at hc
  exact absurd hc.2 (not_le.mpr h)

theorem Ride.step_of_not_completes (rp : RouteProvider) (clock : Nat → Int) (t : Int)
    (r : Ride) (σ : Store) (h : ¬ Ride.completesAt t r) :
    Ride.step rp clock t r σ = (Ride.idleBranch t r, σ) := by
  unfold Ride.step
  rcases Ride.operationBranch_cases rp clock t (Ride.idleBranch t r) σ with h1 | ⟨hop, hg, _⟩
  · exact h1
  · exact absurd ⟨hop, hg⟩ h

/-- Between the times t1 and t1 + d no run that starts at or after t1 can complete. -/
theorem noCompletion_of_window (t1 d : Int) (hd : 0 < d) (evs : List Event)
    (w : Ride × Store) (hdur : w.1.rideDuration = d)
    (hst : w.1.state = RideState.idle ∨ t1 ≤ w.1.lastRunTime)
    (htimes : ∀ t ∈ tickTimes evs, t1 ≤ t ∧ t < t1 + d) : noCompletion evs w := by
  induction evs generalizing w with
  | nil => trivial
  | cons e es ih =>
    cases e with
    | tick rp clock t =>
      have ht : t1 ≤ t ∧ t < t1 + d := htimes t (by simp [tickTimes, Event.time])
      have hrest : ∀ t' ∈ tickTimes es, t1 ≤ t' ∧ t' < t1 + d := by
        intro t' h'
        exact htimes t' (by simp only [tickTimes, List.filterMap_cons, Event.time]
                            exact List.mem_cons_of_mem _ h')
      have hnc : ¬ Ride.completesAt t w.1 := by
        by_cases hidle : w.1.state = RideState.idle
        · exact Ride.not_completesAt_of_idle t w.1 (by rw [hdur]; exact hd) hidle
        · have hop : w.1.state = RideState.inOperation := by
            cases hs : w.1.state with
            | idle => exact absurd hs hidle
            | inOperation => rfl
          rcases hst with h | h
          · exact absurd h hidle
          · exact Ride.not_completesAt_of_early t w.1 hop (by rw [hdur]; omega)
      refine ⟨hnc, ih _ ?_ ?_ hrest⟩
      · rw [Ride.step_of_not_completes rp clock t w.1 w.2 hnc]
        show (Ride.idleBranch t w.1).rideDuration = d
        rw [Ride.idleBranch_rideDuration, hdur]
      · rw [Ride.step_of_not_completes rp clock t w.1 w.2 hnc]
        show (Ride.idleBranch t w.1).state = RideState.idle ∨
          t1 ≤ (Ride.idleBranch t w.1).lastRunTime
        rcases Ride.idleBranch_cases t w.1 with h | ⟨_, _, h⟩
        · rw [h]; exact hst
        · rw [h]; right; exact ht.1
    | arrive vid =>
      have hrest : ∀ t' ∈ tickTimes es, t1 ≤ t' ∧ t' < t1 + d := by
        intro t' h'
        exact htimes t' (by simpa [tickTimes, Event.time] using h')
      exact ih ((Event.arrive vid).apply w) hdur hst hrest
    | external f =>
      have hrest : ∀ t' ∈ tickTimes es, t1 ≤ t' ∧ t' < t1 + d := by
        intro t' h'
        exact htimes t' (by simpa [tickTimes, Event.time] using h')
      exact ih ((Event.external f).apply w) hdur hst hrest

/-- Events other than ticks leave the state, the revenue and the duration of the ride alone. -/
theorem runEvents_of_no_tick (evs : List Event) (w : Ride × Store)
    (h : ∀ e ∈ evs, e.isTick = false) :
    (runEvents evs w).1.state = w.1.state ∧
      (runEvents evs w).1.accumulatedRevenue = w.1.accumulatedRevenue ∧
      (runEvents evs w).1.rideDuration = w.1.rideDuration := by
  induction evs generalizing w with
  | nil => exact ⟨rfl, rfl, rfl⟩
  | cons e es ih =>
    have hrest : ∀ e' ∈ es, e'.isTick = false := fun e' h' =>
      h e' (List.mem_cons_of_mem _ h')
    cases e with
    | tick rp clock t => exact Bool.noConfusion (h _ (List.mem_cons_self _ _))
    | arrive vid => exact ih ((Event.arrive vid).apply w) hrest
    | external f => exact ih ((Event.external f).apply w) hrest

theorem runEvents_append (es1 es2 : List Event) (w : Ride × Store) :
    runEvents (es1 ++ es2) w = runEvents es2 (runEvents es1 w) := by
  induction es1 generalizing w with
  | nil => rfl
  | cons e es ih => exact ih (e.apply w)

/-- C4 (no double accrual): let a ride with rideDuration > 0 be in operation with k loaded
visitors and let the duration guard hold at time t1. After the tick at t1,
(1) any further sequence of events in which no tick completes a run,
(2) any further sequence of events whose ticks all lie in the window from t1 (included)
to t1 + rideDuration (excluded), and
(3) any arrivals followed by one more tick at any time t2 whatsoever (so also a time
at which the old guard still holds, with or without visitors waiting)
leave accumulatedRevenue at the original value plus ticketPrice × k. -/
theorem Ride.no_double_accrual (rp : RouteProvider) (clock : Nat → Int) (t1 : Int)
    (r : Ride) (σ : Store) (hd : 0 < r.rideDuration)
    (hop : r.state = RideState.inOperation) (hg : t1 ≥ r.lastRunTime + r.rideDuration) :
    (∀ evs : List Event, noCompletion evs (Ride.step rp clock t1 r σ) →
        (runEvents evs (Ride.step rp clock t1 r σ)).1.accumulatedRevenue =
          r.accumulatedRevenue + r.ticketPrice * (r.loadedVisitors.length : Int)) ∧
      (∀ evs : List Event, (∀ t ∈ tickTimes evs, t1 ≤ t ∧ t < t1 + r.rideDuration) →
        (runEvents evs (Ride.step rp clock t1 r σ)).1.accumulatedRevenue =
          r.accumulatedRevenue + r.ticketPrice * (r.loadedVisitors.length : Int)) ∧
      (∀ (pre : List Event) (rp2 : RouteProvider) (clock2 : Nat → Int) (t2 : Int),
        (∀ e ∈ pre, e.isTick = false) →
        (runEvents (pre ++ [Event.tick rp2 clock2 t2])
            (Ride.step rp clock t1 r σ)).1.accumulatedRevenue =
          r.accumulatedRevenue + r.ticketPrice * (r.loadedVisitors.length : Int)) := by
  have hrev : (Ride.step rp clock t1 r σ).1.accumulatedRevenue =
      r.accumulatedRevenue + r.ticketPrice * (r.loadedVisitors.length : Int) := by
    rw [Ride.step_of_due rp clock t1 r σ hop hg]
  have hdur := Ride.step_rideDuration rp clock t1 r σ
  have hstate : (Ride.step rp clock t1 r σ).1.state = RideState.idle := by
    rw [Ride.step_of_due rp clock t1 r σ hop hg]
  refine ⟨?_, ?_, ?_⟩
  · intro evs hnc
    rw [runEvents_revenue_of_noCompletion evs _ hnc, hrev]
  · intro evs htimes
    have hnc := noCompletion_of_window t1 r.rideDuration hd evs
      (Ride.step rp clock t1 r σ) hdur (Or.inl hstate) htimes
    rw [runEvents_revenue_of_noCompletion evs _ hnc, hrev]
  · intro pre rp2 clock2 t2 hpre
    obtain ⟨h1, h2, h3⟩ := runEvents_of_no_tick pre (Ride.step rp clock t1 r σ) hpre
    rw [runEvents_append]
    show (Ride.step rp2 clock2 t2 (runEvents pre (Ride.step rp clock t1 r σ)).1
      (runEvents pre (Ride.step rp clock t1 r σ)).2).1.accumulatedRevenue = _
    rw [Ride.step_revenue_of_not_completes rp2 clock2 t2 _ _
      (Ride.not_completesAt_of_idle t2 _ (by rw [h3, hdur]; exact hd) (by rw [h1, hstate])),
      h2, hrev]

/-- Witness of C4: the run of three visitors at ticket price 5 completes at time 110;
a tick at 112 loads the waiting visitor, a further visitor arrives, ticks at 115 and 119
follow, and the revenue is 15 throughout. -/
theorem Ride.no_double_accrual_witness :
    ((0 : Int) < sampleRunningRide.rideDuration ∧
      sampleRunningRide.state = RideState.inOperation ∧
      (110 : Int) ≥ sampleRunningRide.lastRunTime + sampleRunningRide.rideDuration) ∧
    (runEvents
        [Event.tick noRouteProvider (fun _ => 0) 112, Event.arrive 5,
          Event.tick noRouteProvider (fun _ => 0) 115,
          Event.tick noRouteProvider (fun _ => 0) 119]
        (Ride.step noRouteProvider (fun _ => 0) 110 sampleRunningRide
          sampleStore)).1.accumulatedRevenue = 15 :=
  ⟨by decide,
    ((Ride.no_double_accrual noRouteProvider (fun _ => 0) 110 sampleRunningRide sampleStore
      (by decide) (by decide) (by decide)).2.1 _ (by decide)).trans (by decide)⟩

/-! ## Tick-atomicity -/

theorem Ride.step_of_idle_waiting (rp : RouteProvider) (clock : Nat → Int) (t : Int)
    (r : Ride) (σ : Store) (hd : 0 < r.rideDuration) (hidle : r.state = RideState.idle)
    (hw : r.waitingVisitors ≠ []) :
    Ride.step rp clock t r σ =
      ({ r with
          loadedVisitors :=
            jsSlice0 r.waitingVisitors (min (r.waitingVisitors.length : Int) r.rideCapacity)
          waitingVisitors :=
            shiftTimes (min (r.waitingVisitors.length : Int) r.rideCapacity).toNat
              r.waitingVisitors
          lastRunTime := t
          state := RideState.inOperation
          isMeshOutOfDate := true }, σ) := by
  rw [Ride.step_of_not_completes rp clock t r σ (Ride.not_completesAt_of_idle t r hd hidle),
    Ride.idleBranch_of_waiting t r hidle hw]

/-- A tick on a ride in operation before the run is due changes nothing. -/
theorem Ride.step_of_early (rp : RouteProvider) (clock : Nat → Int) (t : Int)
    (r : Ride) (σ : Store) (hop : r.state = RideState.inOperation)
    (h : t < r.lastRunTime + r.rideDuration) : Ride.step rp clock t r σ = (r, σ) := by
  rw [Ride.step_of_not_completes rp clock t r σ (Ride.not_completesAt_of_early t r hop h),
    Ride.idleBranch_of_inOperation t r hop]

/-- While every tick comes before lastRunTime + rideDuration, a ride in operation stays
in operation with the same batch, the same start time and the same revenue. -/
theorem runEvents_of_early (evs : List Event) (w : Ride × Store)
    (hop : w.1.state = RideState.inOperation)
    (htimes : ∀ t ∈ tickTimes evs, t < w.1.lastRunTime + w.1.rideDuration) :
    (runEvents evs w).1.state = RideState.inOperation ∧
      (runEvents evs w).1.loadedVisitors = w.1.loadedVisitors ∧
      (runEvents evs w).1.accumulatedRevenue = w.1.accumulatedRevenue ∧
      (runEvents evs w).1.lastRunTime = w.1.lastRunTime ∧
      (runEvents evs w).1.rideDuration = w.1.rideDuration := by
  induction evs generalizing w with
  | nil => exact ⟨hop, rfl, rfl, rfl, rfl⟩
  | cons e es ih =>
    cases e with
    | tick rp clock t =>
      have ht : t < w.1.lastRunTime + w.1.rideDuration :=
        htimes t (by simp [tickTimes, Event.time])
      have hstep : (Event.tick rp clock t).apply w = w :=
        Ride.step_of_early rp clock t w.1 w.2 hop ht
      have hrun : runEvents (Event.tick rp clock t :: es) w = runEvents es w := by
        show runEvents es ((Event.tick rp clock t).apply w) = runEvents es w
        rw [hstep]
      rw [hrun]
      exact ih w hop (fun t' h' => htimes t' (by
        simp only [tickTimes, List.filterMap_cons, Event.time]
        exact List.mem_cons_of_mem _ h'))
    | arrive vid =>
      exact ih ((Event.arrive vid).apply w) hop (fun t' h' => htimes t' (by
        simpa [tickTimes, Event.time] using h'))
    | external f =>
      exact ih ((Event.external f).apply w) hop (fun t' h' => htimes t' (by
        simpa [tickTimes, Event.time] using h'))

/-- As long as the ride is in operation after every prefix of the events, the start
time and the duration of the run are the ones it began with. -/
theorem runEvents_of_stays (evs : List Event) (w : Ride × Store)
    (hstay : ∀ n : Nat, (runEvents (evs.take n) w).1.state = RideState.inOperation) :
    (runEvents evs w).1.state = RideState.inOperation ∧
      (runEvents evs w).1.lastRunTime = w.1.lastRunTime ∧
      (runEvents evs w).1.rideDuration = w.1.rideDuration ∧
      (runEvents evs w).1.loadedVisitors = w.1.loadedVisitors ∧
      (runEvents evs w).1.accumulatedRevenue = w.1.accumulatedRevenue := by
  induction evs generalizing w with
  | nil => exact ⟨hstay 0, rfl, rfl, rfl, rfl⟩
  | cons e es ih =>
    have h0 : w.1.state = RideState.inOperation := hstay 0
    have h1 : (e.apply w).1.state = RideState.inOperation := hstay 1
    have hkeep : (e.apply w).1.lastRunTime = w.1.lastRunTime ∧
        (e.apply w).1.rideDuration = w.1.rideDuration ∧
        (e.apply w).1.loadedVisitors = w.1.loadedVisitors ∧
        (e.apply w).1.accumulatedRevenue = w.1.accumulatedRevenue := by
      cases e with
      | tick rp clock t =>
        by_cases hg : t ≥ w.1.lastRunTime + w.1.rideDuration
        · have h2 : ((Event.tick rp clock t).apply w).1.state = RideState.idle := by
            show (Ride.step rp clock t w.1 w.2).1.state = RideState.idle
            rw [Ride.step_of_due rp clock t w.1 w.2 h0 hg]
          rw [h2] at h1
          exact RideState.noConfusion h1
        · have h2 : (Event.tick rp clock t).apply w = w :=
            Ride.step_of_early rp clock t w.1 w.2 h0 (not_le.mp hg)
          rw [h2]
          exact ⟨rfl, rfl, rfl, rfl⟩
      | arrive vid => exact ⟨rfl, rfl, rfl, rfl⟩
      | external f => exact ⟨rfl, rfl, rfl, rfl⟩
    obtain ⟨i1, i2, i3, i4, i5⟩ := ih (e.apply w) (fun n => hstay (n + 1))
    exact ⟨i1, i2.trans hkeep.1, i3.trans hkeep.2.1, i4.trans hkeep.2.2.1,
      i5.trans hkeep.2.2.2⟩

/-- C9 (tick-atomicity): let an idle ride with rideDuration > 0 and a non-empty waiting
list be ticked at time T.
(1) That tick loads the batch and does not complete it: the ride ends the tick in
operation with the batch loaded, lastRunTime = T, the revenue and the visitors unchanged.
(2) While every later tick has a time < T + rideDuration, whatever arrives, the ride
stays in operation with the same batch and the same revenue.
(3) The tick that completes the batch (the first tick after which the ride is idle
again) has a simulation time ≥ T + rideDuration. -/
theorem Ride.tick_atomicity (rp : RouteProvider) (clock : Nat → Int) (T : Int)
    (r : Ride) (σ : Store) (hd : 0 < r.rideDuration) (hidle : r.state = RideState.idle)
    (hw : r.waitingVisitors ≠ []) :
    ((Ride.step rp clock T r σ).1.state = RideState.inOperation ∧
        (Ride.step rp clock T r σ).1.loadedVisitors =
          jsSlice0 r.waitingVisitors (min (r.waitingVisitors.length : Int) r.rideCapacity) ∧
        (Ride.step rp clock T r σ).1.lastRunTime = T ∧
        (Ride.step rp clock T r σ).1.accumulatedRevenue = r.accumulatedRevenue ∧
        (Ride.step rp clock T r σ).2 = σ) ∧
      (∀ evs : List Event, (∀ t ∈ tickTimes evs, t < T + r.rideDuration) →
        (runEvents evs (Ride.step rp clock T r σ)).1.state = RideState.inOperation ∧
          (runEvents evs (Ride.step rp clock T r σ)).1.loadedVisitors =
            (Ride.step rp clock T r σ).1.loadedVisitors ∧
          (runEvents evs (Ride.step rp clock T r σ)).1.accumulatedRevenue =
            r.accumulatedRevenue) ∧
      (∀ (pre : List Event) (rp2 : RouteProvider) (clock2 : Nat → Int) (t : Int),
        (∀ n : Nat, (runEvents (pre.take n) (Ride.step rp clock T r σ)).1.state =
          RideState.inOperation) →
        (runEvents (pre ++ [Event.tick rp2 clock2 t]) (Ride.step rp clock T r σ)).1.state =
          RideState.idle →
        t ≥ T + r.rideDuration) := by
  have hstep := Ride.step_of_idle_waiting rp clock T r σ hd hidle hw
  have hst : (Ride.step rp clock T r σ).1.state = RideState.inOperation := by rw [hstep]
  have hlast : (Ride.step rp clock T r σ).1.lastRunTime = T := by rw [hstep]
  have hrev : (Ride.step rp clock T r σ).1.accumulatedRevenue = r.accumulatedRevenue := by
    rw [hstep]
  have hdur := Ride.step_rideDuration rp clock T r σ
  refine ⟨⟨hst, by rw [hstep], hlast, hrev, by rw [hstep]⟩, ?_, ?_⟩
  · intro evs htimes
    obtain ⟨h1, h2, h3, _, _⟩ := runEvents_of_early evs (Ride.step rp clock T r σ) hst
      (by rw [hlast, hdur]; exact htimes)
    exact ⟨h1, h2, h3.trans hrev⟩
  · intro pre rp2 clock2 t hstay hdone
    obtain ⟨h1, h2, h3, _, _⟩ := runEvents_of_stays pre (Ride.step rp clock T r σ) hstay
    rw [runEvents_append] at hdone
    by_contra hlt
    have hearly : t < (runEvents pre (Ride.step rp clock T r σ)).1.lastRunTime +
        (runEvents pre (Ride.step rp clock T r σ)).1.rideDuration := by
      rw [h2, h3, hlast, hdur]
      exact not_le.mp hlt
    have hsame : runEvents [Event.tick rp2 clock2 t] (runEvents pre (Ride.step rp clock T r σ))
        = runEvents pre (Ride.step rp clock T r σ) :=
      Ride.step_of_early rp2 clock2 t _ _ h1 hearly
    rw [hsame, h1] at hdone
    exact RideState.noConfusion hdone

/-- Witness of C9: the sample ride loads the visitors 1 and 2 at time 100; ticks at 103
and 109 and an arrival in between leave the batch on board; the run is complete after
the tick at 110 = 100 + 10. -/
theorem Ride.tick_atomicity_witness :
    ((0 : Int) < sampleRide.rideDuration ∧ sampleRide.state = RideState.idle ∧
      sampleRide.waitingVisitors ≠ []) ∧
    (Ride.step noRouteProvider (fun _ => 0) 100 sampleRide sampleStore).1.loadedVisitors
      = [1, 2] ∧
    (runEvents
        [Event.tick noRouteProvider (fun _ => 0) 103, Event.arrive 5,
          Event.tick noRouteProvider (fun _ => 0) 109]
        (Ride.step noRouteProvider (fun _ => 0) 100 sampleRide sampleStore)).1.loadedVisitors
      = [1, 2] ∧
    (runEvents
        [Event.tick noRouteProvider (fun _ => 0) 103, Event.arrive 5,
          Event.tick noRouteProvider (fun _ => 0) 109,
          Event.tick noRouteProvider (fun _ => 0) 110]
        (Ride.step noRouteProvider (fun _ => 0) 100 sampleRide sampleStore)).1.state
      = RideState.idle := by
  have h := Ride.tick_atomicity noRouteProvider (fun _ => 0) 100 sampleRide sampleStore
    (by decide) (by decide) (by decide)
  exact ⟨by decide, h.1.2.1.trans (by decide),
    ((h.2.1 _ (by decide)).2.1).trans (h.1.2.1.trans (by decide)), by decide⟩

/-! ## Release -/

theorem Ride.releaseFrom_append (self : RideId) (rp : RouteProvider) (clock : Nat → Int)
    (i : Nat) (xs ys : List VisitorId) (σ : Store) :
    Ride.releaseFrom self rp clock i (xs ++ ys) σ =
      Ride.releaseFrom self rp clock (i + xs.length) ys
        (Ride.releaseFrom self rp clock i xs σ) := by
  induction xs generalizing i σ with
  | nil => rfl
  | cons x xs ih =>
    show Ride.releaseFrom self rp clock (i + 1) (xs ++ ys) _ = _
    rw [ih]
    have hlen : i + 1 + xs.length = i + (x :: xs).length := by
      simp only [List.length_cons]; omega
    rw [hlen]
    rfl

theorem Ride.releaseFrom_of_not_mem (self : RideId) (rp : RouteProvider) (clock : Nat → Int)
    (i : Nat) (xs : List VisitorId) (σ : Store) (vid : VisitorId) (h : vid ∉ xs) :
    Ride.releaseFrom self rp clock i xs σ vid = σ vid := by
  induction xs generalizing i σ with
  | nil => rfl
  | cons x xs ih =>
    have hx : vid ≠ x := fun e => h (e ▸ List.mem_cons_self _ _)
    have hxs : vid ∉ xs := fun e => h (List.mem_cons_of_mem _ e)
    show Ride.releaseFrom self rp clock (i + 1) xs _ vid = σ vid
    rw [ih (i + 1) _ hxs, Function.update_noteq hx]

/-- The fields of a visitor after the release of a batch are those that the forEach
body gave it at its last turn. -/
theorem Ride.releaseFrom_last (self : RideId) (rp : RouteProvider) (clock : Nat → Int)
    (pre post : List VisitorId) (σ : Store) (vid : VisitorId) (h : vid ∉ post) :
    Ride.releaseFrom self rp clock 0 (pre ++ vid :: post) σ vid =
      Ride.releaseVisitor self rp (clock pre.length) vid
        (Ride.releaseFrom self rp clock 0 pre σ vid) := by
  rw [Ride.releaseFrom_append]
  show Ride.releaseFrom self rp clock (0 + pre.length + 1) post _ vid = _
  rw [Ride.releaseFrom_of_not_mem self rp clock _ post _ vid h, Function.update_same,
    Nat.zero_add]

theorem jsIndex_one_of_lt {α : Type} (xs : List α) (h : 1 < xs.length) :
    jsIndex xs 1 = JsVal.val (xs.get ⟨1, h⟩) := by
  unfold jsIndex
  rw [List.getElem?_eq_getElem h]
  rfl

theorem Ride.releaseVisitor_of_next (self : RideId) (rp : RouteProvider) (now : Int)
    (vid : VisitorId) (v : Visitor) (route : NextRideRoute)
    (h : rp.findNextRidePath vid (Ride.visited self v) v.origin v.rideTiles = some route) :
    Ride.releaseVisitor self rp now vid v =
      { Ride.visited self v with
        finalDestinationRideNode := JsVal.val route.destinationNode
        finalDestinationRideTile := JsVal.val route.nextRideTile
        pathToDestinationRideNode := JsVal.val route.pathToDestination
        destination := jsIndex route.pathToDestination 1
        worldTarget := jsIndex route.pathToDestination 1
        cycleStartTime := now
        isPaused := false
        visible := true } := by
  have h2 : rp.findNextRidePath vid (Ride.visited self v) (Ride.visited self v).origin
      (Ride.visited self v).rideTiles = some route := h
  unfold Ride.releaseVisitor
  simp only [h2]
  rfl

theorem Ride.releaseVisitor_of_exit (self : RideId) (rp : RouteProvider) (now : Int)
    (vid : VisitorId) (v : Visitor) (route : ExitRoute)
    (hnext : rp.findNextRidePath vid (Ride.visited self v) v.origin v.rideTiles = none)
    (hexit : rp.findExitPath vid { Ride.visited self v with isLeaving := true } v.origin
      v.entranceTile = some route) :
    Ride.releaseVisitor self rp now vid v =
      { Ride.visited self v with
        isLeaving := true
        finalDestinationRideNode := JsVal.val route.destinationNode
        finalDestinationRidceTile := JsVal.val route.entranceTile
        pathToDestinationRideNode := JsVal.val route.pathToDestination
        destination := jsIndex route.pathToDestination 1
        worldTarget := jsIndex route.pathToDestination 1
        cycleStartTime := now
        isPaused := false
        visible := true } := by
  have h2 : rp.findNextRidePath vid (Ride.visited self v) (Ride.visited self v).origin
      (Ride.visited self v).rideTiles = none := hnext
  have h3 : rp.findExitPath vid { Ride.visited self v with isLeaving := true }
      ({ Ride.visited self v with isLeaving := true } : Visitor).origin
      ({ Ride.visited self v with isLeaving := true } : Visitor).entranceTile = some route :=
    hexit
  unfold Ride.releaseVisitor
  simp only [h2, h3]
  rfl

theorem Ride.releaseVisitor_of_none (self : RideId) (rp : RouteProvider) (now : Int)
    (vid : VisitorId) (v : Visitor)
    (hnext : rp.findNextRidePath vid (Ride.visited self v) v.origin v.rideTiles = none)
    (hexit : rp.findExitPath vid { Ride.visited self v with isLeaving := true } v.origin
      v.entranceTile = none) :
    Ride.releaseVisitor self rp now vid v =
      { Ride.visited self v with
        isLeaving := true
        destination := JsVal.null
        worldTarget := JsVal.null
        cycleStartTime := now
        isPaused := false
        visible := true } := by
  have h2 : rp.findNextRidePath vid (Ride.visited self v) (Ride.visited self v).origin
      (Ride.visited self v).rideTiles = none := hnext
  have h3 : rp.findExitPath vid { Ride.visited self v with isLeaving := true }
      ({ Ride.visited self v with isLeaving := true } : Visitor).origin
      ({ Ride.visited self v with isLeaving := true } : Visitor).entranceTile = none :=
    hexit
  unfold Ride.releaseVisitor
  simp only [h2, h3]
  rfl

theorem Ride.step_store_of_due (rp : RouteProvider) (clock : Nat → Int) (t : Int)
    (r : Ride) (σ : Store) (hop : r.state = RideState.inOperation)
    (hg : t ≥ r.lastRunTime + r.rideDuration) :
    (Ride.step rp clock t r σ).2 = (Ride.releaseVisitors rp clock r r.loadedVisitors σ).2 := by
  rw [Ride.step_of_due rp clock t r σ hop hg]
  rfl

/-- C5 (release to the next ride): let vid be a visitor of the released batch, written
pre ++ vid :: post with vid not in post (its last turn in the forEach; when vid occurs
once, the visitors of pre are other visitors and its fields at that turn are those of
the store). If findNextRidePath, called for vid at that turn, returns a route whose
pathToDestination has at least two elements, then after the release destination is the
path element at index 1 and finalDestinationRideNode, finalDestinationRideTile and
pathToDestinationRideNode are destinationNode, nextRideTile and pathToDestination of
the route. The same holds for the visitors after a tick that completes a run with this
batch loaded. -/
theorem Ride.release_next_ride (rp : RouteProvider) (clock : Nat → Int) (r : Ride)
    (σ : Store) (pre post : List VisitorId) (vid : VisitorId) (route : NextRideRoute)
    (hlast : vid ∉ post)
    (hroute : rp.findNextRidePath vid
        (Ride.visited r.ref (Ride.releaseFrom r.ref rp clock 0 pre σ vid))
        (Ride.releaseFrom r.ref rp clock 0 pre σ vid).origin
        (Ride.releaseFrom r.ref rp clock 0 pre σ vid).rideTiles = some route)
    (hlen : 1 < route.pathToDestination.length) :
    (((Ride.releaseVisitors rp clock r (pre ++ vid :: post) σ).2 vid).destination =
          JsVal.val (route.pathToDestination.get ⟨1, hlen⟩) ∧
        ((Ride.releaseVisitors rp clock r (pre ++ vid :: post) σ).2 vid).finalDestinationRideNode
          = JsVal.val route.destinationNode ∧
        ((Ride.releaseVisitors rp clock r (pre ++ vid :: post) σ).2 vid).finalDestinationRideTile
          = JsVal.val route.nextRideTile ∧
        ((Ride.releaseVisitors rp clock r (pre ++ vid :: post) σ).2 vid).pathToDestinationRideNode
          = JsVal.val route.pathToDestination) ∧
      (∀ t : Int, r.state = RideState.inOperation → t ≥ r.lastRunTime + r.rideDuration →
        r.loadedVisitors = pre ++ vid :: post →
        ((Ride.step rp clock t r σ).2 vid).destination =
            JsVal.val (route.pathToDestination.get ⟨1, hlen⟩) ∧
          ((Ride.step rp clock t r σ).2 vid).finalDestinationRideNode
            = JsVal.val route.destinationNode ∧
          ((Ride.step rp clock t r σ).2 vid).finalDestinationRideTile
            = JsVal.val route.nextRideTile ∧
          ((Ride.step rp clock t r σ).2 vid).pathToDestinationRideNode
            = JsVal.val route.pathToDestination) := by
  have hrel : (Ride.releaseVisitors rp clock r (pre ++ vid :: post) σ).2 vid =
      Ride.releaseVisitor r.ref rp (clock pre.length) vid
        (Ride.releaseFrom r.ref rp clock 0 pre σ vid) :=
    Ride.releaseFrom_last r.ref rp clock pre post σ vid hlast
  have hfields := Ride.releaseVisitor_of_next r.ref rp (clock pre.length) vid _ route hroute
  have hmain : ((Ride.releaseVisitors rp clock r (pre ++ vid :: post) σ).2 vid).destination =
        JsVal.val (route.pathToDestination.get ⟨1, hlen⟩) ∧
      ((Ride.releaseVisitors rp clock r (pre ++ vid :: post) σ).2 vid).finalDestinationRideNode
        = JsVal.val route.destinationNode ∧
      ((Ride.releaseVisitors rp clock r (pre ++ vid :: post) σ).2 vid).finalDestinationRideTile
        = JsVal.val route.nextRideTile ∧
      ((Ride.releaseVisitors rp clock r (pre ++ vid :: post) σ).2 vid).pathToDestinationRideNode
        = JsVal.val route.pathToDestination := by
    rw [hrel, hfields]
    exact ⟨jsIndex_one_of_lt _ hlen, rfl, rfl, rfl⟩
  refine ⟨hmain, ?_⟩
  intro t hop hg hbatch
  rw [Ride.step_store_of_due rp clock t r σ hop hg, hbatch]
  exact hmain

/-- Witness of C5: the batch 1, 2, 3 of the running sample ride; the provider sends
visitor 1 along the path 10, 20, 30 to the ride on tile 60 at node 50. -/
theorem Ride.release_next_ride_witness :
    ((1 : VisitorId) ∉ [2, 3] ∧
      sampleProvider.findNextRidePath 1
        (Ride.visited sampleRunningRide.ref
          (Ride.releaseFrom sampleRunningRide.ref sampleProvider (fun _ => 0) 0 []
            sampleStore 1))
        (Ride.releaseFrom sampleRunningRide.ref sampleProvider (fun _ => 0) 0 []
          sampleStore 1).origin
        (Ride.releaseFrom sampleRunningRide.ref sampleProvider (fun _ => 0) 0 []
          sampleStore 1).rideTiles = some (NextRideRoute.mk 50 60 [10, 20, 30])) ∧
    ((Ride.step sampleProvider (fun _ => 0) 110 sampleRunningRide sampleStore).2 1).destination
      = JsVal.val 20 ∧
    ((Ride.step sampleProvider (fun _ => 0) 110 sampleRunningRide
      sampleStore).2 1).finalDestinationRideTile = JsVal.val 60 :=
  ⟨⟨by decide, rfl⟩,
    ((Ride.release_next_ride sampleProvider (fun _ => 0) sampleRunningRide sampleStore
      [] [2, 3] 1 (NextRideRoute.mk 50 60 [10, 20, 30]) (by decide) rfl (by decide)).2 110
      (by decide) (by decide) rfl).1,
    ((Ride.release_next_ride sampleProvider (fun _ => 0) sampleRunningRide sampleStore
      [] [2, 3] 1 (NextRideRoute.mk 50 60 [10, 20, 30]) (by decide) rfl (by decide)).2 110
      (by decide) (by decide) rfl).2.2.1⟩

/-- C6 (exit fallback): let vid be a visitor of the released batch pre ++ vid :: post
with vid not in post. If findNextRidePath, called for vid at its last turn, returns
null and findExitPath returns a route whose pathToDestination has at least two elements,
then after the release isLeaving is true and destination is the element at index 1 of the
exit path. The same holds for the visitors after a tick that completes a run with this
batch loaded. -/
theorem Ride.release_exit_fallback (rp : RouteProvider) (clock : Nat → Int) (r : Ride)
    (σ : Store) (pre post : List VisitorId) (vid : VisitorId) (route : ExitRoute)
    (hlast : vid ∉ post)
    (hnext : rp.findNextRidePath vid
        (Ride.visited r.ref (Ride.releaseFrom r.ref rp clock 0 pre σ vid))
        (Ride.releaseFrom r.ref rp clock 0 pre σ vid).origin
        (Ride.releaseFrom r.ref rp clock 0 pre σ vid).rideTiles = none)
    (hexit : rp.findExitPath vid
        { Ride.visited r.ref (Ride.releaseFrom r.ref rp clock 0 pre σ vid) with
          isLeaving := true }
        (Ride.releaseFrom r.ref rp clock 0 pre σ vid).origin
        (Ride.releaseFrom r.ref rp clock 0 pre σ vid).entranceTile = some route)
    (hlen : 1 < route.pathToDestination.length) :
    (((Ride.releaseVisitors rp clock r (pre ++ vid :: post) σ).2 vid).isLeaving = true ∧
        ((Ride.releaseVisitors rp clock r (pre ++ vid :: post) σ).2 vid).destination =
          JsVal.val (route.pathToDestination.get ⟨1, hlen⟩)) ∧
      (∀ t : Int, r.state = RideState.inOperation → t ≥ r.lastRunTime + r.rideDuration →
        r.loadedVisitors = pre ++ vid :: post →
        ((Ride.step rp clock t r σ).2 vid).isLeaving = true ∧
          ((Ride.step rp clock t r σ).2 vid).destination =
            JsVal.val (route.pathToDestination.get ⟨1, hlen⟩)) := by
  have hrel : (Ride.releaseVisitors rp clock r (pre ++ vid :: post) σ).2 vid =
      Ride.releaseVisitor r.ref rp (clock pre.length) vid
        (Ride.releaseFrom r.ref rp clock 0 pre σ vid) :=
    Ride.releaseFrom_last r.ref rp clock pre post σ vid hlast
  have hfields :=
    Ride.releaseVisitor_of_exit r.ref rp (clock pre.length) vid _ route hnext hexit
  have hmain : ((Ride.releaseVisitors rp clock r (pre ++ vid :: post) σ).2 vid).isLeaving
        = true ∧
      ((Ride.releaseVisitors rp clock r (pre ++ vid :: post) σ).2 vid).destination =
        JsVal.val (route.pathToDestination.get ⟨1, hlen⟩) := by
    rw [hrel, hfields]
    exact ⟨rfl, jsIndex_one_of_lt _ hlen⟩
  refine ⟨hmain, ?_⟩
  intro t hop hg hbatch
  rw [Ride.step_store_of_due rp clock t r σ hop hg, hbatch]
  exact hmain

/-- Witness of C6: in the batch 1, 2, 3 the provider finds no next ride for visitor 2
and the exit path 10, 11. -/
theorem Ride.release_exit_fallback_witness :
    ((2 : VisitorId) ∉ [3] ∧
      sampleProvider.findNextRidePath 2
        (Ride.visited sampleRunningRide.ref
          (Ride.releaseFrom sampleRunningRide.ref sampleProvider (fun _ => 0) 0 [1]
            sampleStore 2))
        (Ride.releaseFrom sampleRunningRide.ref sampleProvider (fun _ => 0) 0 [1]
          sampleStore 2).origin
        (Ride.releaseFrom sampleRunningRide.ref sampleProvider (fun _ => 0) 0 [1]
          sampleStore 2).rideTiles = none) ∧
    ((Ride.step sampleProvider (fun _ => 0) 110 sampleRunningRide sampleStore).2 2).isLeaving
      = true ∧
    ((Ride.step sampleProvider (fun _ => 0) 110 sampleRunningRide sampleStore).2 2).destination
      = JsVal.val 11 :=
  ⟨⟨by decide, rfl⟩,
    (Ride.release_exit_fallback sampleProvider (fun _ => 0) sampleRunningRide sampleStore
      [1] [3] 2 (ExitRoute.mk 1 0 [10, 11]) (by decide) rfl rfl (by decide)).2 110
      (by decide) (by decide) rfl⟩

/-- C7 (dead-end terminal state): let vid be a visitor of the released batch
pre ++ vid :: post with vid not in post. If findNextRidePath and findExitPath, called
for vid at its last turn, both return null, the release still yields a store, in which
destination of vid is null and isLeaving is true. The same holds for the visitors after
a tick that completes a run with this batch loaded. -/
theorem Ride.release_dead_end (rp : RouteProvider) (clock : Nat → Int) (r : Ride)
    (σ : Store) (pre post : List VisitorId) (vid : VisitorId)
    (hlast : vid ∉ post)
    (hnext : rp.findNextRidePath vid
        (Ride.visited r.ref (Ride.releaseFrom r.ref rp clock 0 pre σ vid))
        (Ride.releaseFrom r.ref rp clock 0 pre σ vid).origin
        (Ride.releaseFrom r.ref rp clock 0 pre σ vid).rideTiles = none)
    (hexit : rp.findExitPath vid
        { Ride.visited r.ref (Ride.releaseFrom r.ref rp clock 0 pre σ vid) with
          isLeaving := true }
        (Ride.releaseFrom r.ref rp clock 0 pre σ vid).origin
        (Ride.releaseFrom r.ref rp clock 0 pre σ vid).entranceTile = none) :
    (((Ride.releaseVisitors rp clock r (pre ++ vid :: post) σ).2 vid).destination
          = JsVal.null ∧
        ((Ride.releaseVisitors rp clock r (pre ++ vid :: post) σ).2 vid).isLeaving = true) ∧
      (∀ t : Int, r.state = RideState.inOperation → t ≥ r.lastRunTime + r.rideDuration →
        r.loadedVisitors = pre ++ vid :: post →
        ((Ride.step rp clock t r σ).2 vid).destination = JsVal.null ∧
          ((Ride.step rp clock t r σ).2 vid).isLeaving = true) := by
  have hrel : (Ride.releaseVisitors rp clock r (pre ++ vid :: post) σ).2 vid =
      Ride.releaseVisitor r.ref rp (clock pre.length) vid
        (Ride.releaseFrom r.ref rp clock 0 pre σ vid) :=
    Ride.releaseFrom_last r.ref rp clock pre post σ vid hlast
  have hfields := Ride.releaseVisitor_of_none r.ref rp (clock pre.length) vid _ hnext hexit
  have hmain : ((Ride.releaseVisitors rp clock r (pre ++ vid :: post) σ).2 vid).destination
        = JsVal.null ∧
      ((Ride.releaseVisitors rp clock r (pre ++ vid :: post) σ).2 vid).isLeaving = true := by
    rw [hrel, hfields]
    exact ⟨rfl, rfl⟩
  refine ⟨hmain, ?_⟩
  intro t hop hg hbatch
  rw [Ride.step_store_of_due rp clock t r σ hop hg, hbatch]
  exact hmain

/-- Witness of C7: in the batch 1, 2, 3 the provider finds neither a next ride nor an
exit for visitor 3. -/
theorem Ride.release_dead_end_witness :
    ((3 : VisitorId) ∉ ([] : List VisitorId) ∧
      sampleProvider.findNextRidePath 3
        (Ride.visited sampleRunningRide.ref
          (Ride.releaseFrom sampleRunningRide.ref sampleProvider (fun _ => 0) 0 [1, 2]
            sampleStore 3))
        (Ride.releaseFrom sampleRunningRide.ref sampleProvider (fun _ => 0) 0 [1, 2]
          sampleStore 3).origin
        (Ride.releaseFrom sampleRunningRide.ref sampleProvider (fun _ => 0) 0 [1, 2]
          sampleStore 3).rideTiles = none) ∧
    ((Ride.step sampleProvider (fun _ => 0) 110 sampleRunningRide sampleStore).2 3).destination
      = JsVal.null ∧
    ((Ride.step sampleProvider (fun _ => 0) 110 sampleRunningRide sampleStore).2 3).isLeaving
      = true :=
  ⟨⟨by decide, rfl⟩,
    (Ride.release_dead_end sampleProvider (fun _ => 0) sampleRunningRide sampleStore
      [1, 2] [] 3 (by decide) rfl rfl).2 110 (by decide) (by decide) rfl⟩

/-! ## Degenerate capacities -/

theorem Ride.step_of_idle_waiting_nonpos (rp : RouteProvider) (clock : Nat → Int) (t : Int)
    (r : Ride) (σ : Store) (hd : r.rideDuration ≤ 0) (hidle : r.state = RideState.idle)
    (hw : r.waitingVisitors ≠ []) :
    Ride.step rp clock t r σ =
      ({ r with
          accumulatedRevenue :=
            r.accumulatedRevenue + r.ticketPrice *
              ((jsSlice0 r.waitingVisitors
                (min (r.waitingVisitors.length : Int) r.rideCapacity)).length : Int)
          loadedVisitors := []
          waitingVisitors :=
            shiftTimes (min (r.waitingVisitors.length : Int) r.rideCapacity).toNat
              r.waitingVisitors
          lastRunTime := t
          state := RideState.idle
          isMeshOutOfDate := true },
        Ride.releaseFrom r.ref rp clock 0
          (jsSlice0 r.waitingVisitors (min (r.waitingVisitors.length : Int) r.rideCapacity))
          σ) := by
  unfold Ride.step
  rw [Ride.idleBranch_of_waiting t r hidle hw]
  rw [Ride.operationBranch_of_due rp clock t _ σ rfl (by show t ≥ t + r.rideDuration; omega)]

/-- C11 (zero capacity), as amended: an idle ride with rideCapacity = 0 never loads a
visitor (a tick leaves waitingVisitors, accumulatedRevenue and the visitors unchanged),
but it does leave idle: with visitors waiting and rideDuration > 0 the tick ends in
operation with an empty batch. The state stays idle when nobody waits or when
rideDuration ≤ 0. -/
theorem Ride.step_zero_capacity (rp : RouteProvider) (clock : Nat → Int) (t : Int)
    (r : Ride) (σ : Store) (hcap : r.rideCapacity = 0) (hidle : r.state = RideState.idle) :
    (Ride.step rp clock t r σ).1.waitingVisitors = r.waitingVisitors ∧
      (Ride.step rp clock t r σ).1.accumulatedRevenue = r.accumulatedRevenue ∧
      (Ride.step rp clock t r σ).2 = σ ∧
      (r.waitingVisitors ≠ [] → (Ride.step rp clock t r σ).1.loadedVisitors = []) ∧
      (r.waitingVisitors ≠ [] → 0 < r.rideDuration →
        (Ride.step rp clock t r σ).1.state = RideState.inOperation) ∧
      (r.waitingVisitors = [] ∨ r.rideDuration ≤ 0 →
        (Ride.step rp clock t r σ).1.state = RideState.idle) := by
  have hmin : min (r.waitingVisitors.length : Int) r.rideCapacity = 0 := by
    rw [hcap]; exact min_eq_right (Int.ofNat_nonneg _)
  have hslice : jsSlice0 r.waitingVisitors (0 : Int) = [] := by
    rw [jsSlice0_of_nonneg _ _ (le_refl 0)]; rfl
  by_cases hw : r.waitingVisitors = []
  · rw [Ride.step_of_idle_empty rp clock t r σ hidle hw]
    exact ⟨rfl, rfl, rfl, fun h => absurd hw h, fun h => absurd hw h, fun _ => hidle⟩
  · by_cases hd : 0 < r.rideDuration
    · rw [Ride.step_of_idle_waiting rp clock t r σ hd hidle hw, hmin, hslice]
      refine ⟨rfl, rfl, rfl, fun _ => rfl, fun _ _ => rfl, ?_⟩
      intro h
      rcases h with h | h
      · exact absurd h hw
      · omega
    · rw [Ride.step_of_idle_waiting_nonpos rp clock t r σ (not_lt.mp hd) hidle hw, hmin,
        hslice]
      refine ⟨rfl, ?_, rfl, fun _ => rfl, fun _ h => absurd h hd, fun _ => rfl⟩
      show r.accumulatedRevenue + r.ticketPrice * ((0 : Nat) : Int) = r.accumulatedRevenue
      simp

/-- Witness of C11 as amended: the idle sample ride with capacity 0 and four visitors
waiting keeps all four waiting and loads nobody. -/
theorem Ride.step_zero_capacity_witness :
    (zeroCapacityRide.rideCapacity = 0 ∧ zeroCapacityRide.state = RideState.idle) ∧
    (Ride.step noRouteProvider (fun _ => 0) 100 zeroCapacityRide sampleStore).1.waitingVisitors
      = [1, 2, 3, 4] ∧
    (Ride.step noRouteProvider (fun _ => 0) 100 zeroCapacityRide sampleStore).1.loadedVisitors
      = [] :=
  ⟨by decide,
    (Ride.step_zero_capacity noRouteProvider (fun _ => 0) 100 zeroCapacityRide sampleStore
      (by decide) (by decide)).1,
    (Ride.step_zero_capacity noRouteProvider (fun _ => 0) 100 zeroCapacityRide sampleStore
      (by decide) (by decide)).2.2.2.1 (by decide)⟩

/-- Counterexample to C11 as stated: the idle ride with rideCapacity = 0, rideDuration 10
and the visitors 1, 2, 3, 4 waiting is in operation after the tick at time 100. -/
theorem Ride.zero_capacity_leaves_idle :
    zeroCapacityRide.rideCapacity = 0 ∧ zeroCapacityRide.state = RideState.idle ∧
      (Ride.step noRouteProvider (fun _ => 0) 100 zeroCapacityRide sampleStore).1.state
        = RideState.inOperation ∧
      (Ride.step noRouteProvider (fun _ => 0) 100 zeroCapacityRide sampleStore).1.state
        ≠ RideState.idle := by
  decide

theorem Ride.idleBranch_disjoint (t : Int) (r : Ride) (hc : 0 ≤ r.rideCapacity)
    (hnodup : r.waitingVisitors.Nodup)
    (hdisj : ∀ v, v ∈ r.waitingVisitors → v ∉ r.loadedVisitors) :
    ∀ v, v ∈ (Ride.idleBranch t r).waitingVisitors →
      v ∉ (Ride.idleBranch t r).loadedVisitors := by
  rcases Ride.idleBranch_cases t r with h | ⟨_, _, h⟩
  · rw [h]; exact hdisj
  · rw [h]
    intro v hv hl
    have hn : 0 ≤ min (r.waitingVisitors.length : Int) r.rideCapacity :=
      le_min (Int.ofNat_nonneg _) hc
    have hv2 : v ∈ r.waitingVisitors.drop
        (min (r.waitingVisitors.length : Int) r.rideCapacity).toNat := by
      have := hv
      simpa only [shiftTimes_eq_drop] using this
    have hl2 : v ∈ r.waitingVisitors.take
        (min (r.waitingVisitors.length : Int) r.rideCapacity).toNat := by
      have := hl
      simpa only [jsSlice0_of_nonneg _ _ hn] using this
    exact List.disjoint_take_drop hnodup (le_refl _) hl2 hv2

/-- C12 (single membership), as amended: for a ride with rideCapacity ≥ 0 (and any
rideDuration, in particular > 0), if before the tick waitingVisitors has no duplicates
and shares no visitor with loadedVisitors, then after the tick no visitor is in both
waitingVisitors and loadedVisitors. -/
theorem Ride.step_single_membership (rp : RouteProvider) (clock : Nat → Int) (t : Int)
    (r : Ride) (σ : Store) (hc : 0 ≤ r.rideCapacity) (hnodup : r.waitingVisitors.Nodup)
    (hdisj : ∀ v, v ∈ r.waitingVisitors → v ∉ r.loadedVisitors) :
    ∀ v, v ∈ (Ride.step rp clock t r σ).1.waitingVisitors →
      v ∉ (Ride.step rp clock t r σ).1.loadedVisitors := by
  unfold Ride.step
  rcases Ride.operationBranch_cases rp clock t (Ride.idleBranch t r) σ with h | ⟨_, _, h⟩
  · rw [h]; exact Ride.idleBranch_disjoint t r hc hnodup hdisj
  · rw [h]
    intro v _ hl
    exact absurd hl (List.not_mem_nil v)

/-- Witness of C12 as amended: the sample ride (capacity 2, waiting 1, 2, 3, 4, nobody
loaded) ends the tick with 1, 2 loaded and 3, 4 waiting. -/
theorem Ride.step_single_membership_witness :
    ((0 : Int) ≤ sampleRide.rideCapacity ∧ sampleRide.waitingVisitors.Nodup ∧
      ∀ v, v ∈ sampleRide.waitingVisitors → v ∉ sampleRide.loadedVisitors) ∧
    ∀ v, v ∈ (Ride.step noRouteProvider (fun _ => 0) 100 sampleRide
        sampleStore).1.waitingVisitors →
      v ∉ (Ride.step noRouteProvider (fun _ => 0) 100 sampleRide
        sampleStore).1.loadedVisitors :=
  ⟨⟨by decide, by decide, fun v _ h => absurd h (List.not_mem_nil v)⟩,
    Ride.step_single_membership noRouteProvider (fun _ => 0) 100 sampleRide sampleStore
      (by decide) (by decide) (fun v _ h => absurd h (List.not_mem_nil v))⟩

/-- Counterexample to C12 as stated: the idle ride with rideCapacity = -1,
rideDuration 10, the distinct visitors 1, 2, 3, 4 waiting and nobody loaded ends the
tick with 1, 2, 3 loaded and 1, 2, 3, 4 still waiting, so visitor 1 is in both lists. -/
theorem Ride.negative_capacity_double_membership :
    ((0 : Int) < negativeCapacityRide.rideDuration ∧
        negativeCapacityRide.waitingVisitors.Nodup ∧
        negativeCapacityRide.loadedVisitors = []) ∧
      (Ride.step noRouteProvider (fun _ => 0) 100 negativeCapacityRide
        sampleStore).1.loadedVisitors = [1, 2, 3] ∧
      (Ride.step noRouteProvider (fun _ => 0) 100 negativeCapacityRide
        sampleStore).1.waitingVisitors = [1, 2, 3, 4] ∧
      (1 ∈ (Ride.step noRouteProvider (fun _ => 0) 100 negativeCapacityRide
          sampleStore).1.waitingVisitors ∧
        1 ∈ (Ride.step noRouteProvider (fun _ => 0) 100 negativeCapacityRide
          sampleStore).1.loadedVisitors) := by
  decide

/-! ## Release: the fields written on each branch -/

/-- The three outcomes of the forEach body, by the answers of the two route queries. -/
theorem Ride.releaseVisitor_cases (self : RideId) (rp : RouteProvider) (now : Int)
    (vid : VisitorId) (v : Visitor) :
    (∃ route : NextRideRoute,
        rp.findNextRidePath vid (Ride.visited self v) v.origin v.rideTiles = some route ∧
        Ride.releaseVisitor self rp now vid v =
          { Ride.visited self v with
            finalDestinationRideNode := JsVal.val route.destinationNode
            finalDestinationRideTile := JsVal.val route.nextRideTile
            pathToDestinationRideNode := JsVal.val route.pathToDestination
            destination := jsIndex route.pathToDestination 1
            worldTarget := jsIndex route.pathToDestination 1
            cycleStartTime := now
            isPaused := false
            visible := true }) ∨
      (rp.findNextRidePath vid (Ride.visited self v) v.origin v.rideTiles = none ∧
        ∃ route : ExitRoute, Ride.releaseVisitor self rp now vid v =
          { Ride.visited self v with
            isLeaving := true
            finalDestinationRideNode := JsVal.val route.destinationNode
            finalDestinationRidceTile := JsVal.val route.entranceTile
            pathToDestinationRideNode := JsVal.val route.pathToDestination
            destination := jsIndex route.pathToDestination 1
            worldTarget := jsIndex route.pathToDestination 1
            cycleStartTime := now
            isPaused := false
            visible := true }) ∨
      (rp.findNextRidePath vid (Ride.visited self v) v.origin v.rideTiles = none ∧
        Ride.releaseVisitor self rp now vid v =
          { Ride.visited self v with
            isLeaving := true
            destination := JsVal.null
            worldTarget := JsVal.null
            cycleStartTime := now
            isPaused := false
            visible := true }) := by
  cases h1 : rp.findNextRidePath vid (Ride.visited self v) v.origin v.rideTiles with
  | some route =>
    left
    exact ⟨route, rfl, Ride.releaseVisitor_of_next self rp now vid v route h1⟩
  | none =>
    right
    cases h2 : rp.findExitPath vid { Ride.visited self v with isLeaving := true } v.origin
        v.entranceTile with
    | some route =>
      left
      exact ⟨rfl, route, Ride.releaseVisitor_of_exit self rp now vid v route h1 h2⟩
    | none =>
      right
      exact ⟨rfl, Ride.releaseVisitor_of_none self rp now vid v h1 h2⟩

theorem Ride.releaseVisitor_visitedRides (self : RideId) (rp : RouteProvider) (now : Int)
    (vid : VisitorId) (v : Visitor) :
    (Ride.releaseVisitor self rp now vid v).visitedRides = v.visitedRides ++ [self] := by
  rcases Ride.releaseVisitor_cases self rp now vid v with
    ⟨_, _, h⟩ | ⟨_, _, h⟩ | ⟨_, h⟩ <;> rw [h] <;> rfl

theorem Ride.releaseVisitor_isPaused (self : RideId) (rp : RouteProvider) (now : Int)
    (vid : VisitorId) (v : Visitor) :
    (Ride.releaseVisitor self rp now vid v).isPaused = false := by
  rcases Ride.releaseVisitor_cases self rp now vid v with
    ⟨_, _, h⟩ | ⟨_, _, h⟩ | ⟨_, h⟩ <;> rw [h]

theorem Ride.releaseVisitor_isLeaving_of_none (self : RideId) (rp : RouteProvider) (now : Int)
    (vid : VisitorId) (v : Visitor)
    (hnext : rp.findNextRidePath vid (Ride.visited self v) v.origin v.rideTiles = none) :
    (Ride.releaseVisitor self rp now vid v).isLeaving = true := by
  rcases Ride.releaseVisitor_cases self rp now vid v with
    ⟨route, h1, _⟩ | ⟨_, _, h⟩ | ⟨_, h⟩
  · rw [hnext] at h1
    exact Option.noConfusion h1
  · rw [h]
  · rw [h]

/-- Each occurrence of a visitor in the released array appends the ride once to its
history: after the release visitedRides is the history before it followed by as many
copies of the ride as the visitor has entries in the array. -/
theorem Ride.releaseFrom_visitedRides (self : RideId) (rp : RouteProvider)
    (clock : Nat → Int) (i : Nat) (batch : List VisitorId) (σ : Store) (vid : VisitorId) :
    (Ride.releaseFrom self rp clock i batch σ vid).visitedRides =
      (σ vid).visitedRides ++ List.replicate (batch.count vid) self := by
  induction batch generalizing i σ with
  | nil => simp [Ride.releaseFrom]
  | cons x xs ih =>
    show (Ride.releaseFrom self rp clock (i + 1) xs _ vid).visitedRides = _
    rw [ih]
    by_cases hx : x = vid
    · subst hx
      rw [Function.update_same, Ride.releaseVisitor_visitedRides, List.count_cons_self,
        List.replicate_succ, List.append_assoc]
      rfl
    · rw [Function.update_noteq (Ne.symm hx), List.count_cons_of_ne (Ne.symm hx)]

/-- C14 (history append on every branch): for every visitor with one entry in the
released batch, whatever the two route queries answer (next ride, exit, or nothing) and
whatever its history holds already, visitedRides after the release is visitedRides
before it with this ride appended once at the end; the position of the visitor in the
batch does not matter. The visitors after a tick that completes a run are those the
release of the loaded batch yields. -/
theorem Ride.release_history_append (rp : RouteProvider) (clock : Nat → Int) (r : Ride)
    (σ : Store) (batch : List VisitorId) (vid : VisitorId) (hone : batch.count vid = 1) :
    ((Ride.releaseVisitors rp clock r batch σ).2 vid).visitedRides =
        (σ vid).visitedRides ++ [r.ref] ∧
      (∀ t : Int, r.state = RideState.inOperation → t ≥ r.lastRunTime + r.rideDuration →
        r.loadedVisitors = batch →
        ((Ride.step rp clock t r σ).2 vid).visitedRides = (σ vid).visitedRides ++ [r.ref]) := by
  have hmain : ((Ride.releaseVisitors rp clock r batch σ).2 vid).visitedRides =
      (σ vid).visitedRides ++ [r.ref] := by
    show (Ride.releaseFrom r.ref rp clock 0 batch σ vid).visitedRides = _
    rw [Ride.releaseFrom_visitedRides, hone]
    rfl
  refine ⟨hmain, ?_⟩
  intro t hop hg hbatch
  rw [Ride.step_store_of_due rp clock t r σ hop hg, hbatch]
  exact hmain

/-- Witness of C14: the batch 1, 2, 3 of the running sample ride (ride 7); visitor 3,
the last of the batch, for whom no route is found, gets ride 7 appended once. -/
theorem Ride.release_history_append_witness :
    ([1, 2, 3] : List VisitorId).count 3 = 1 ∧
    ((Ride.step sampleProvider (fun _ => 0) 110 sampleRunningRide
      sampleStore).2 3).visitedRides = (sampleStore 3).visitedRides ++ [7] :=
  ⟨by decide,
    (Ride.release_history_append sampleProvider (fun _ => 0) sampleRunningRide sampleStore
      [1, 2, 3] 3 (by decide)).2 110 (by decide) (by decide) rfl⟩

/-- C20 (isLeaving is written only when no next ride is found): let vid be a visitor of
the released batch pre ++ vid :: post with vid not in post, so that its fields at its
last turn are those of the store after the release of pre (those of the store itself
when vid is not in pre). If findNextRidePath returns a route at that turn, isLeaving
after the release is what it was at that turn; if it returns null, isLeaving is true,
whatever findExitPath answers; in both cases isPaused is false. -/
theorem Ride.release_isLeaving (rp : RouteProvider) (clock : Nat → Int) (r : Ride)
    (σ : Store) (pre post : List VisitorId) (vid : VisitorId) (hlast : vid ∉ post) :
    (∀ route : NextRideRoute,
        rp.findNextRidePath vid
          (Ride.visited r.ref (Ride.releaseFrom r.ref rp clock 0 pre σ vid))
          (Ride.releaseFrom r.ref rp clock 0 pre σ vid).origin
          (Ride.releaseFrom r.ref rp clock 0 pre σ vid).rideTiles = some route →
        ((Ride.releaseVisitors rp clock r (pre ++ vid :: post) σ).2 vid).isLeaving =
          (Ride.releaseFrom r.ref rp clock 0 pre σ vid).isLeaving) ∧
      (rp.findNextRidePath vid
          (Ride.visited r.ref (Ride.releaseFrom r.ref rp clock 0 pre σ vid))
          (Ride.releaseFrom r.ref rp clock 0 pre σ vid).origin
          (Ride.releaseFrom r.ref rp clock 0 pre σ vid).rideTiles = none →
        ((Ride.releaseVisitors rp clock r (pre ++ vid :: post) σ).2 vid).isLeaving = true) ∧
      ((Ride.releaseVisitors rp clock r (pre ++ vid :: post) σ).2 vid).isPaused = false ∧
      (vid ∉ pre → Ride.releaseFrom r.ref rp clock 0 pre σ vid = σ vid) ∧
      (∀ t : Int, r.state = RideState.inOperation → t ≥ r.lastRunTime + r.rideDuration →
        r.loadedVisitors = pre ++ vid :: post →
        (Ride.step rp clock t r σ).2 vid =
          (Ride.releaseVisitors rp clock r (pre ++ vid :: post) σ).2 vid) := by
  have hrel : (Ride.releaseVisitors rp clock r (pre ++ vid :: post) σ).2 vid =
      Ride.releaseVisitor r.ref rp (clock pre.length) vid
        (Ride.releaseFrom r.ref rp clock 0 pre σ vid) :=
    Ride.releaseFrom_last r.ref rp clock pre post σ vid hlast
  refine ⟨?_, ?_, ?_, ?_, ?_⟩
  · intro route hroute
    rw [hrel, Ride.releaseVisitor_of_next r.ref rp (clock pre.length) vid _ route hroute]
    rfl
  · intro hnone
    rw [hrel]
    exact Ride.releaseVisitor_isLeaving_of_none r.ref rp (clock pre.length) vid _ hnone
  · rw [hrel]
    exact Ride.releaseVisitor_isPaused r.ref rp (clock pre.length) vid _
  · intro hpre
    exact Ride.releaseFrom_of_not_mem r.ref rp clock 0 pre σ vid hpre
  · intro t hop hg hbatch
    rw [Ride.step_store_of_due rp clock t r σ hop hg, hbatch]

/-- Witness of C20: in the batch 1, 2, 3 visitor 1 gets a next ride and keeps
isLeaving = false; isPaused, true before, is false after the release. -/
theorem Ride.release_isLeaving_witness :
    (1 : VisitorId) ∉ [2, 3] ∧
    ((Ride.releaseVisitors sampleProvider (fun _ => 0) sampleRunningRide ([] ++ 1 :: [2, 3])
      sampleStore).2 1).isLeaving = (sampleStore 1).isLeaving ∧
    ((Ride.releaseVisitors sampleProvider (fun _ => 0) sampleRunningRide ([] ++ 1 :: [2, 3])
      sampleStore).2 1).isPaused = false :=
  ⟨by decide,
    (Ride.release_isLeaving sampleProvider (fun _ => 0) sampleRunningRide sampleStore
      [] [2, 3] 1 (by decide)).1 (NextRideRoute.mk 50 60 [10, 20, 30]) rfl,
    (Ride.release_isLeaving sampleProvider (fun _ => 0) sampleRunningRide sampleStore
      [] [2, 3] 1 (by decide)).2.2.1⟩

/-- C13, the code at the failing input: every visitor has arrived with
finalDestinationRideTile = 42; the run of the batch 1, 2, 3 completes at time 110; for
visitor 2 no next ride is found and the exit route is (node 1, entrance tile 0, path
10, 11). After the release finalDestinationRideNode and pathToDestinationRideNode are
those of the exit route, the entrance tile 0 is in the property
finalDestinationRidceTile, and finalDestinationRideTile still holds 42. -/
theorem Ride.release_exit_tile_not_written :
    sampleProvider.findNextRidePath 2 (Ride.visited 7 (arrivedStore 2)) 0 [] = none ∧
      sampleProvider.findExitPath 2 { Ride.visited 7 (arrivedStore 2) with isLeaving := true }
        0 0 = some (ExitRoute.mk 1 0 [10, 11]) ∧
      ((Ride.step sampleProvider (fun _ => 0) 110 sampleRunningRide
        arrivedStore).2 2).finalDestinationRideNode = JsVal.val 1 ∧
      ((Ride.step sampleProvider (fun _ => 0) 110 sampleRunningRide
        arrivedStore).2 2).pathToDestinationRideNode = JsVal.val [10, 11] ∧
      ((Ride.step sampleProvider (fun _ => 0) 110 sampleRunningRide
        arrivedStore).2 2).finalDestinationRidceTile = JsVal.val 0 ∧
      ((Ride.step sampleProvider (fun _ => 0) 110 sampleRunningRide
        arrivedStore).2 2).finalDestinationRideTile = JsVal.val 42 ∧
      ((Ride.step sampleProvider (fun _ => 0) 110 sampleRunningRide
        arrivedStore).2 2).finalDestinationRideTile ≠ JsVal.val 0 := by
  decide

/-! ## Frame properties of a tick -/

/-- C15 (completion does not re-load in the same tick): a ride in operation at the
start of a tick with the duration guard satisfied ends the tick idle with an empty
loadedVisitors, and with waitingVisitors and lastRunTime exactly as before the tick,
also when visitors are waiting. -/
theorem Ride.step_completion_no_reload (rp : RouteProvider) (clock : Nat → Int) (t : Int)
    (r : Ride) (σ : Store) (hop : r.state = RideState.inOperation)
    (hg : t ≥ r.lastRunTime + r.rideDuration) :
    (Ride.step rp clock t r σ).1.state = RideState.idle ∧
      (Ride.step rp clock t r σ).1.loadedVisitors = [] ∧
      (Ride.step rp clock t r σ).1.waitingVisitors = r.waitingVisitors ∧
      (Ride.step rp clock t r σ).1.lastRunTime = r.lastRunTime := by
  rw [Ride.step_of_due rp clock t r σ hop hg]
  exact ⟨rfl, rfl, rfl, rfl⟩

/-- Witness of C15: the running sample ride completes at time 110 while visitor 4 waits;
visitor 4 is still waiting after the tick and lastRunTime is still 100. -/
theorem Ride.step_completion_no_reload_witness :
    (sampleRunningRide.state = RideState.inOperation ∧
      (110 : Int) ≥ sampleRunningRide.lastRunTime + sampleRunningRide.rideDuration) ∧
    (Ride.step noRouteProvider (fun _ => 0) 110 sampleRunningRide sampleStore).1.state
      = RideState.idle ∧
    (Ride.step noRouteProvider (fun _ => 0) 110 sampleRunningRide sampleStore).1.loadedVisitors
      = [] ∧
    (Ride.step noRouteProvider (fun _ => 0) 110 sampleRunningRide
      sampleStore).1.waitingVisitors = [4] ∧
    (Ride.step noRouteProvider (fun _ => 0) 110 sampleRunningRide sampleStore).1.lastRunTime
      = 100 :=
  ⟨by decide,
    Ride.step_completion_no_reload noRouteProvider (fun _ => 0) 110 sampleRunningRide
      sampleStore (by decide) (by decide)⟩

/-- C16 (no completion in the tick that starts idle), as amended: for a ride that is
idle at the start of a tick and has rideDuration > 0, the completion guard does not fire
in that tick: accumulatedRevenue is unchanged, no visitor is released (the visitors are
unchanged), and if visitors were waiting the ride ends the tick in operation with the
loaded batch on board and lastRunTime set to the time of the tick. -/
theorem Ride.step_idle_no_completion (rp : RouteProvider) (clock : Nat → Int) (t : Int)
    (r : Ride) (σ : Store) (hidle : r.state = RideState.idle) (hd : 0 < r.rideDuration) :
    ¬ Ride.completesAt t r ∧
      (Ride.step rp clock t r σ).1.accumulatedRevenue = r.accumulatedRevenue ∧
      (Ride.step rp clock t r σ).2 = σ ∧
      (r.waitingVisitors ≠ [] →
        (Ride.step rp clock t r σ).1.state = RideState.inOperation ∧
          (Ride.step rp clock t r σ).1.loadedVisitors =
            jsSlice0 r.waitingVisitors
              (min (r.waitingVisitors.length : Int) r.rideCapacity) ∧
          (Ride.step rp clock t r σ).1.lastRunTime = t) := by
  have hnc := Ride.not_completesAt_of_idle t r hd hidle
  refine ⟨hnc, Ride.step_revenue_of_not_completes rp clock t r σ hnc, ?_, ?_⟩
  · rw [Ride.step_of_not_completes rp clock t r σ hnc]
  · intro hw
    rw [Ride.step_of_idle_waiting rp clock t r σ hd hidle hw]
    exact ⟨rfl, rfl, rfl⟩

/-- Witness of C16 as amended: the idle sample ride (duration 10) loads the visitors 1
and 2 at time 100 and keeps its revenue of 0. -/
theorem Ride.step_idle_no_completion_witness :
    (sampleRide.state = RideState.idle ∧ (0 : Int) < sampleRide.rideDuration) ∧
    (Ride.step noRouteProvider (fun _ => 0) 100 sampleRide sampleStore).1.accumulatedRevenue
      = sampleRide.accumulatedRevenue ∧
    (Ride.step noRouteProvider (fun _ => 0) 100 sampleRide sampleStore).1.state
      = RideState.inOperation :=
  ⟨by decide,
    (Ride.step_idle_no_completion noRouteProvider (fun _ => 0) 100 sampleRide sampleStore
      (by decide) (by decide)).2.1,
    ((Ride.step_idle_no_completion noRouteProvider (fun _ => 0) 100 sampleRide sampleStore
      (by decide) (by decide)).2.2.2 (by decide)).1⟩

/-- Counterexample to C16 as stated: the ride with rideDuration = 0, ticket price 5 and
capacity 2 is idle with the visitors 1, 2, 3, 4 waiting and a revenue of 0. The tick at
time 100 loads 1 and 2 and completes the run at once: the revenue is 10, the ride is
idle with nobody loaded, and visitor 1 has been released (ride 7 is in its history). -/
theorem Ride.zero_duration_completes_in_loading_tick :
    (zeroDurationRide.state = RideState.idle ∧ zeroDurationRide.rideDuration = 0 ∧
        zeroDurationRide.accumulatedRevenue = 0 ∧ zeroDurationRide.waitingVisitors ≠ [] ∧
        (sampleStore 1).visitedRides = []) ∧
      (Ride.step noRouteProvider (fun _ => 0) 100 zeroDurationRide
        sampleStore).1.accumulatedRevenue = 10 ∧
      (Ride.step noRouteProvider (fun _ => 0) 100 zeroDurationRide sampleStore).1.state
        = RideState.idle ∧
      (Ride.step noRouteProvider (fun _ => 0) 100 zeroDurationRide
        sampleStore).1.loadedVisitors = [] ∧
      ((Ride.step noRouteProvider (fun _ => 0) 100 zeroDurationRide
        sampleStore).2 1).visitedRides = [7] := by
  decide

/-- C17 (no early abort): a tick on a ride in operation with
currentSimulationTime < lastRunTime + rideDuration changes neither the ride (state,
loadedVisitors, waitingVisitors, lastRunTime, accumulatedRevenue and every other field)
nor any field of any visitor; in particular waiting visitors are not boarded. -/
theorem Ride.step_no_early_abort (rp : RouteProvider) (clock : Nat → Int) (t : Int)
    (r : Ride) (σ : Store) (hop : r.state = RideState.inOperation)
    (h : t < r.lastRunTime + r.rideDuration) :
    (Ride.step rp clock t r σ).1 = r ∧ (Ride.step rp clock t r σ).2 = σ := by
  rw [Ride.step_of_early rp clock t r σ hop h]
  exact ⟨rfl, rfl⟩

/-- Witness of C17: the running sample ride (three loaded, capacity 3, visitor 4 waiting,
started at 100, duration 10) at time 109. -/
theorem Ride.step_no_early_abort_witness :
    (sampleRunningRide.state = RideState.inOperation ∧
      (109 : Int) < sampleRunningRide.lastRunTime + sampleRunningRide.rideDuration) ∧
    (Ride.step sampleProvider (fun _ => 0) 109 sampleRunningRide sampleStore).1
      = sampleRunningRide ∧
    (Ride.step sampleProvider (fun _ => 0) 109 sampleRunningRide sampleStore).2
      = sampleStore :=
  ⟨by decide,
    Ride.step_no_early_abort sampleProvider (fun _ => 0) 109 sampleRunningRide sampleStore
      (by decide) (by decide)⟩

/-! ## Revenue is monotone -/

theorem lookup_some_mem (l : List (String × Int)) (k : String) (v : Int)
    (h : l.lookup k = some v) : ∃ k', (k', v) ∈ l := by
  induction l with
  | nil => simp [List.lookup] at h
  | cons p ps ih =>
    obtain ⟨a, b⟩ := p
    by_cases hk : (k == a) = true
    · rw [List.lookup, hk] at h
      have hb : b = v := Option.some.inj h
      exact ⟨a, by rw [hb]; exact List.mem_cons_self _ _⟩
    · have hk2 : (k == a) = false := by simpa using hk
      rw [List.lookup, hk2] at h
      obtain ⟨k', hk'⟩ := ih h
      exact ⟨k', List.mem_cons_of_mem _ hk'⟩

theorem configRideTicketPrice_values :
    ∀ p ∈ configRideTicketPrice, p.2 = 3 ∨ p.2 = 5 := by
  decide

/-- C18 (revenue is monotone and changes only at run completion): for a ride with
ticketPrice ≥ 0, accumulatedRevenue after a tick is ≥ accumulatedRevenue before it, and
it differs from the value before only if the completion guard fired in that tick. Every
ticket price of the configuration table is 3 or 5, hence ≥ 0. -/
theorem Ride.step_revenue_monotone (rp : RouteProvider) (clock : Nat → Int) (t : Int)
    (r : Ride) (σ : Store) (hp : 0 ≤ r.ticketPrice) :
    r.accumulatedRevenue ≤ (Ride.step rp clock t r σ).1.accumulatedRevenue ∧
      ((Ride.step rp clock t r σ).1.accumulatedRevenue ≠ r.accumulatedRevenue →
        Ride.completesAt t r) ∧
      (∀ (subType : String) (price : Int), lookupTicketPrice subType = some price →
        (price = 3 ∨ price = 5) ∧ 0 ≤ price) := by
  refine ⟨?_, ?_, ?_⟩
  · unfold Ride.step
    rcases Ride.operationBranch_cases rp clock t (Ride.idleBranch t r) σ with h | ⟨_, _, h⟩
    · rw [h, Ride.idleBranch_accumulatedRevenue]
    · rw [h]
      show r.accumulatedRevenue ≤ (Ride.idleBranch t r).accumulatedRevenue +
        (Ride.idleBranch t r).ticketPrice * ((Ride.idleBranch t r).loadedVisitors.length : Int)
      rw [Ride.idleBranch_accumulatedRevenue, Ride.idleBranch_ticketPrice]
      have hmul : 0 ≤ r.ticketPrice * ((Ride.idleBranch t r).loadedVisitors.length : Int) :=
        Int.mul_nonneg hp (Int.ofNat_nonneg _)
      omega
  · intro hne
    by_contra hnc
    exact hne (Ride.step_revenue_of_not_completes rp clock t r σ hnc)
  · intro subType price hlook
    obtain ⟨k, hk⟩ := lookup_some_mem configRideTicketPrice subType price hlook
    have hv : price = 3 ∨ price = 5 := configRideTicketPrice_values (k, price) hk
    refine ⟨hv, ?_⟩
    rcases hv with h | h <;> rw [h] <;> decide

/-- Witness of C18: the running sample ride (ticket price 5, three loaded) has revenue
0 before and 15 after the tick at time 110. -/
theorem Ride.step_revenue_monotone_witness :
    (0 : Int) ≤ sampleRunningRide.ticketPrice ∧
    sampleRunningRide.accumulatedRevenue ≤
      (Ride.step noRouteProvider (fun _ => 0) 110 sampleRunningRide
        sampleStore).1.accumulatedRevenue ∧
    lookupTicketPrice "carousel" = some 3 :=
  ⟨by decide,
    (Ride.step_revenue_monotone noRouteProvider (fun _ => 0) 110 sampleRunningRide
      sampleStore (by decide)).1,
    by decide⟩

/-! ## Who clears the loaded batch -/

/-- C19 (who clears the batch), as amended: the release routine itself clears the loaded
batch. For every ride and every batch, releaseVisitors returns the ride with
loadedVisitors empty and every other field of the ride as it was; at run completion
step takes loadedVisitors as the routine left it and sets only state and the mesh flag
afterwards. -/
theorem Ride.releaseVisitors_clears_batch (rp : RouteProvider) (clock : Nat → Int)
    (r : Ride) (batch : List VisitorId) (σ : Store) :
    (Ride.releaseVisitors rp clock r batch σ).1.loadedVisitors = [] ∧
      (Ride.releaseVisitors rp clock r batch σ).1 = { r with loadedVisitors := [] } ∧
      (∀ t : Int, r.state = RideState.inOperation → t ≥ r.lastRunTime + r.rideDuration →
        (Ride.step rp clock t r σ).1 =
          { (Ride.releaseVisitors rp clock
              { r with accumulatedRevenue :=
                  r.accumulatedRevenue + r.ticketPrice * (r.loadedVisitors.length : Int) }
              r.loadedVisitors σ).1 with
            state := RideState.idle
            isMeshOutOfDate := true }) := by
  refine ⟨rfl, rfl, ?_⟩
  intro t hop hg
  rw [Ride.step_of_due rp clock t r σ hop hg]
  rfl

/-- Counterexample to C19 as stated: the running sample ride has the visitors 1, 2, 3
loaded; the ride that releaseVisitors returns for this batch has nobody loaded. -/
theorem Ride.releaseVisitors_touches_batch :
    sampleRunningRide.loadedVisitors = [1, 2, 3] ∧
      (Ride.releaseVisitors sampleProvider (fun _ => 0) sampleRunningRide
        sampleRunningRide.loadedVisitors sampleStore).1.loadedVisitors = [] ∧
      (Ride.releaseVisitors sampleProvider (fun _ => 0) sampleRunningRide
        sampleRunningRide.loadedVisitors sampleStore).1.loadedVisitors
        ≠ sampleRunningRide.loadedVisitors := by
  decide

/-- Witness of C19 as amended: at time 110 the running sample ride ends the tick with
the ride that releaseVisitors returned, idle and with the mesh flag set. -/
theorem Ride.releaseVisitors_clears_batch_witness :
    (sampleRunningRide.state = RideState.inOperation ∧
      (110 : Int) ≥ sampleRunningRide.lastRunTime + sampleRunningRide.rideDuration) ∧
    (Ride.releaseVisitors sampleProvider (fun _ => 0) sampleRunningRide [1, 2, 3]
      sampleStore).1.loadedVisitors = [] ∧
    (Ride.step sampleProvider (fun _ => 0) 110 sampleRunningRide sampleStore).1 =
      { (Ride.releaseVisitors sampleProvider (fun _ => 0)
          { sampleRunningRide with accumulatedRevenue :=
              sampleRunningRide.accumulatedRevenue + sampleRunningRide.ticketPrice *
                (sampleRunningRide.loadedVisitors.length : Int) }
          sampleRunningRide.loadedVisitors sampleStore).1 with
        state := RideState.idle
        isMeshOutOfDate := true } :=
  ⟨by decide,
    (Ride.releaseVisitors_clears_batch sampleProvider (fun _ => 0) sampleRunningRide
      [1, 2, 3] sampleStore).1,
    (Ride.releaseVisitors_clears_batch sampleProvider (fun _ => 0) sampleRunningRide
      [1, 2, 3] sampleStore).2.2 110 (by decide) (by decide)⟩
